import Mathlib

/-!
Verification of the noisysockets/resolver composable DNS resolution library.

This file gives a shallow embedding, in Lean 4, of the core data model and
operations of the `noisysockets/resolver` Go library (composable DNS
resolution strategies), and proves or refutes a fixed list of claims about
its behaviour.

The embedding mirrors the Go source:

* `netip.Addr` becomes `Addr`, a list of byte values of length 4 (an IPv4
  address) or 16 (an IPv6 address), with `is4`, `is6`, `is4In6` and `unmap`
  following the semantics of the Go `net/netip` package.
* `net.DNSError` becomes the structure `DNSError`; the helper
  `extendDNSError` mirrors the `mergo.Merge`-based field merge used by the
  source (zero-valued destination fields are filled from the source value).
* Go functions returning `(value, error)` pairs become `Except`-valued
  functions; a nil-error return with value `v` is `Except.ok v`.
* Network I/O performed by the leaf DNS resolver (dialing, TLS handshakes,
  query exchanges) is abstracted into explicit outcome parameters, so each
  resolver body is a pure function of the outcomes the network hands it.
* The RFC 6724 address ordering (`addrselect.SortByRFC6724`, which lives in
  a sibling repository) is abstracted as a sorting-function parameter that
  is assumed to permute its input.
* The goroutine/channel structure of the `Parallel` combinator is embedded
  as a small-step transition system over explicit configurations.
-/

namespace NoisyResolver

/-- Model of Go `netip.Addr`: an IP address as a list of byte values.
A 4-entry list is an IPv4 address (`Is4`), a 16-entry list is an IPv6
address (`Is6`), matching the `net/netip` representation. -/
structure Addr where
  bytes : List Nat
deriving DecidableEq

/-- Go `netip.Addr.Is4`: the address is a 4-byte IPv4 value. -/
def Addr.is4 (a : Addr) : Bool :=
  a.bytes.length == 4

/-- Go `netip.Addr.Is6`: the address is a 16-byte IPv6 value. -/
def Addr.is6 (a : Addr) : Bool :=
  a.bytes.length == 16

/-- Go `netip.Addr.Is4In6`: a 16-byte address whose first 12 bytes are the
IPv4-mapped-IPv6 pattern `::ffff:0:0/96`. -/
def Addr.is4In6 (a : Addr) : Bool :=
  a.bytes.length == 16 && a.bytes.take 12 == [0, 0, 0, 0, 0, 0, 0, 0, 0, 0, 255, 255]

/-- Go `netip.Addr.Unmap`: strip an IPv4-mapped-IPv6 wrapper, otherwise
return the address unchanged. -/
def Addr.unmap (a : Addr) : Addr :=
  if a.is4In6 then ⟨a.bytes.drop 12⟩ else a

/-- Go `netip.IPv6Loopback()`, the address `::1`. -/
def ipv6Loopback : Addr :=
  ⟨[0, 0, 0, 0, 0, 0, 0, 0, 0, 0, 0, 0, 0, 0, 0, 1]⟩

/-- The IPv4 loopback literal `127.0.0.1`. -/
def ipv4Loopback : Addr :=
  ⟨[127, 0, 0, 1]⟩

/-- The error message of `ErrNoSuchHost` (`errors.go`). -/
def errNoSuchHostMsg : String := "no such host"

/-- The error message of `ErrServerMisbehaving` (`errors.go`). -/
def errServerMisbehavingMsg : String := "server misbehaving"

/-- The error message of `ErrUnsupportedNetwork` (`errors.go`). -/
def errUnsupportedNetworkMsg : String := "unsupported network"

/-- Model of Go `net.DNSError`: message plus classification flags.
A freshly allocated Go value has every field at its zero value, which the
default field values reproduce. -/
structure DNSError where
  err : String := ""
  name : String := ""
  server : String := ""
  isTimeout : Bool := false
  isTemporary : Bool := false
  isNotFound : Bool := false
deriving DecidableEq

/-- `extendDNSError` (resolver.go): merge `src` into `dst` with
`mergo.Merge`, which fills exactly the zero-valued fields of `dst` from
`src` (empty strings and false booleans are the zero values). -/
def extendDNSError (dst : DNSError) (src : DNSError) : DNSError where
  err := if dst.err = "" then src.err else dst.err
  name := if dst.name = "" then src.name else dst.name
  server := if dst.server = "" then src.server else dst.server
  isTimeout := dst.isTimeout || src.isTimeout
  isTemporary := dst.isTemporary || src.isTemporary
  isNotFound := dst.isNotFound || src.isNotFound

/-- Model of a non-nil Go `error` value as surfaced by the combinators:
either a `*net.DNSError` or the result of `errors.Join` over a non-empty
list of collected errors. -/
inductive GoError where
  | dns (e : DNSError)
  | joined (es : List GoError)

/-- Go `errors.Join(errs...)`: nil (`none`) when the list is empty,
otherwise a non-nil combined error holding every input error. -/
def joinErrors (es : List GoError) : Option GoError :=
  if es.isEmpty then none else some (GoError.joined es)

/-- Equality of modelled `(value, error)` outcomes is decidable, so that
concrete runs of the embedded resolvers can be checked by evaluation. -/
instance instDecEqExcept {ε α : Type} [DecidableEq ε] [DecidableEq α] :
    DecidableEq (Except ε α) := fun x y =>
  match x, y with
  | .ok a, .ok b =>
      if h : a = b then isTrue (by rw [h]) else isFalse (fun hh => by cases hh; exact h rfl)
  | .error a, .error b =>
      if h : a = b then isTrue (by rw [h]) else isFalse (fun hh => by cases hh; exact h rfl)
  | .ok _, .error _ => isFalse (fun hh => by cases hh)
  | .error _, .ok _ => isFalse (fun hh => by cases hh)

/-- A DNS answer resource record, as far as the resolver inspects replies:
an `A` record carrying 4 address bytes, an `AAAA` record carrying 16, or
any other record type (ignored by the resolver). -/
inductive RR where
  | a (b : List Nat)
  | aaaa (b : List Nat)
  | other
deriving DecidableEq

/-- The part of a `dns.Msg` reply the resolver consumes: the response code
and the answer section. -/
structure Reply where
  rcode : Nat
  answer : List RR
deriving DecidableEq

/-- The answer-collection loop of `LookupNetIP` (dns.go lines 198-205):
`A` records become 4-byte addresses via `netip.AddrFrom4`, `AAAA` records
16-byte addresses via `netip.AddrFrom16`, all other records are skipped. -/
def extractAddrs (rrs : List RR) : List Addr :=
  rrs.filterMap fun rr =>
    match rr with
    | .a b => some ⟨b⟩
    | .aaaa b => some ⟨b⟩
    | .other => none

/-- `util.FilterAddresses` (and, with the same family predicates, the
`addresses.FilterByNetwork` helper used by hosts.go): keep every address
for `"ip"`, the addresses that unmap to IPv4 for `"ip4"`, and the 16-byte
addresses for `"ip6"`. -/
def filterAddresses (allAddrs : List Addr) (network : String) : List Addr :=
  allAddrs.foldl
    (fun addrs addr =>
      if network = "ip" then addrs ++ [addr]
      else if network = "ip4" then
        (if addr.unmap.is4 then addrs ++ [addr.unmap] else addrs)
      else if network = "ip6" then
        (if addr.is6 then addrs ++ [addr] else addrs)
      else addrs)
    []

/-- `dns64Resolver.synthesizeAddr` (dns64.go lines 100-111): unmap the
address; if it is not IPv4, return it unchanged; otherwise build a 16-byte
address from the first 12 bytes of the configured DNS64 `Prefix` address
`p` followed by the 4 IPv4 bytes. -/
def synthesizeAddr (p : Addr) (addr : Addr) : Addr :=
  let addr := addr.unmap
  if addr.is4 then ⟨p.bytes.take 12 ++ addr.bytes⟩ else addr

/-- The well-known DNS64 `Prefix` default `64:ff9b::/96` (its address part). -/
def wellKnownPfx : Addr :=
  ⟨[0, 0x64, 0xff, 0x9b, 0, 0, 0, 0, 0, 0, 0, 0, 0, 0, 0, 0]⟩

/-- `strings.Count(host, ".")`: the number of dots embedded in a name. -/
def countDots (s : String) : Nat :=
  (s.data.filter (fun c => c = '.')).length

/-- Whether a name ends in a trailing dot (`strings.HasSuffix(host, ".")`,
and the test done by `dns.IsFqdn` on the names considered here). -/
def endsWithDot (s : String) : Bool :=
  s.data.getLast? == some '.'

/-- `dns.Fqdn`: append a trailing dot unless the name already ends in one
(escaped trailing dots do not occur in the inputs considered here). -/
def fqdn (s : String) : String :=
  if endsWithDot s then s else s ++ "."

/-- Split a list of characters at every dot. -/
def splitDots : List Char → List (List Char)
  | [] => [[]]
  | c :: cs =>
      if c = '.' then [] :: splitDots cs
      else
        match splitDots cs with
        | [] => [[c]]
        | l :: ls => (c :: l) :: ls

/-- `dns.SplitDomainName`: split a name into its labels, dropping the
trailing root dot; the empty name and the bare root have no labels. -/
def splitDomainName (s : String) : List String :=
  let t := if endsWithDot s then s.data.dropLast else s.data
  if t.isEmpty then [] else (splitDots t).map (fun cs => String.mk cs)

/-- ASCII lower-casing of one character (`strings.ToLower` on the
ASCII-only names DNS uses). -/
def lowerChar (c : Char) : Char :=
  if 'A' ≤ c ∧ c ≤ 'Z' then Char.ofNat (c.toNat + 32) else c

/-- `dns.CanonicalName`: lower-case the name and make it fully qualified. -/
def canonicalName (s : String) : String :=
  fqdn (String.mk (s.data.map lowerChar))

/-- `util.Join` (util/domain.go): concatenate the labels of `host` and
`domain` with dots and canonicalise the result. -/
def joinHostDomain (host : String) (domain : String) : String :=
  canonicalName (String.intercalate "." (splitDomainName host ++ splitDomainName domain))

/-- `dns.IsDomainName`, on the names considered here: the name is nonempty,
either the bare root or made of nonempty labels of at most 63 characters,
and at most 255 characters long overall. -/
def isDomainName (s : String) : Bool :=
  let t := if endsWithDot s then s.data.dropLast else s.data
  if s.data.isEmpty then false
  else if t.isEmpty then true
  else (splitDots t).all (fun l => !l.isEmpty && l.length ≤ 63) && s.data.length ≤ 255

/-- The outcome of one inner resolver call: the `([]netip.Addr, error)`
pair with a nil error becomes `Except.ok`, a non-nil error `Except.error`. -/
abbrev LookupOutcome := Except GoError (List Addr)

/-- The loop body of `sequentialResolver.LookupNetIP` (the errs
accumulator holds the errors of the inner resolvers already tried, in
order). -/
def sequentialGo : List LookupOutcome → List GoError → LookupOutcome
  | [], errs =>
      match joinErrors errs with
      | none => .ok []
      | some e => .error e
  | o :: rest, errs =>
      match o with
      | .ok addrs => .ok addrs
      | .error e => sequentialGo rest (errs ++ [e])

/-- `sequentialResolver.LookupNetIP`: try each inner resolver in order,
return the first success, otherwise `nil, errors.Join(errs...)`
(which is a nil error when no resolver ran). The inner resolvers are
represented by the outcomes they would produce for this call. -/
def sequentialLookupNetIP (outcomes : List LookupOutcome) : LookupOutcome :=
  sequentialGo outcomes []

/-- The synthesized not-found error of `chainResolver.LookupNetIP`. -/
def chainNotFound (host : String) : DNSError where
  err := errNoSuchHostMsg
  name := host
  isNotFound := true

/-- The loop body of `chainResolver.LookupNetIP` (the accumulator holds
the first error observed so far, if any). -/
def chainGo (host : String) : List LookupOutcome → Option GoError → LookupOutcome
  | [], firstErr =>
      match firstErr with
      | some e => .error e
      | none => .error (.dns (chainNotFound host))
  | o :: rest, firstErr =>
      match o with
      | .ok addrs => .ok addrs
      | .error e => chainGo host rest (match firstErr with | none => some e | some e0 => some e0)

/-- `chainResolver.LookupNetIP`: try each inner resolver in order, return
the first success; on total failure return the first error, or a
synthesized not-found error when no resolver ran. -/
def chainLookupNetIP (host : String) (outcomes : List LookupOutcome) : LookupOutcome :=
  chainGo host outcomes none

/-- Modelled from the spec: `util.Shuffle` (whose source lives outside the
provided tree) applies a uniform random shuffle to the slice. It is
modelled as a selection shuffle driven by an explicit stream of random
numbers: each round removes the element at position `r % length` and
emits it next, which is the uniform shuffle when the `r` are uniform. -/
def shuffle : List Nat → List α → List α
  | [], xs => xs
  | _ :: _, [] => []
  | r :: rands, x :: xs =>
      let j := r % (x :: xs).length
      (x :: xs).getD j x :: shuffle rands ((x :: xs).eraseIdx j)

/-- `roundRobinResolver.LookupNetIP` (round_robin.go lines 35-41): copy
the stored resolver list, shuffle the copy, and delegate to
`Sequential(rotatedResolvers...).LookupNetIP`. -/
def roundRobinLookupNetIP (rands : List Nat) (outcomes : List LookupOutcome) : LookupOutcome :=
  sequentialLookupNetIP (shuffle rands outcomes)

/-- Modelled from the spec: the classification helper `isTemporary`
(whose source lives outside the provided tree) reports the `isTemporary`
flag of the error, the sole signal the retry combinator consults. -/
def isTemporaryErr (e : DNSError) : Bool :=
  e.isTemporary

/-- Modelled from the spec: the `retry.DoWithData` loop of retry-go as
configured by `retryResolver.LookupNetIP` (`Attempts(attempts)`,
`RetryIf(isTemporary)`, `LastErrorOnly(true)`): invoke the inner resolver
up to `fuel` times starting with invocation number `k`, return the first
success immediately, stop early on a non-temporary error, and surface
only the last error; the second component counts the invocations made. -/
def retryGo (inner : Nat → Except DNSError (List Addr)) (k : Nat) :
    Nat → Except DNSError (List Addr) × Nat
  | 0 => (inner k, k + 1)
  | 1 => (inner k, k + 1)
  | fuel + 2 =>
      match inner k with
      | .ok v => (.ok v, k + 1)
      | .error e =>
          if isTemporaryErr e then retryGo inner (k + 1) (fuel + 1)
          else (.error e, k + 1)

/-- `retryResolver.LookupNetIP` with `attempts > 0`: run the retry loop;
`inner i` is the outcome of the i-th invocation of the inner resolver
(counting from 0), and the returned number counts the invocations made. -/
def retryLookupNetIP (attempts : Nat) (inner : Nat → Except DNSError (List Addr)) :
    Except DNSError (List Addr) × Nat :=
  retryGo inner 0 attempts

/-- `dns.TypeA`. -/
def typeA : Nat := 1

/-- `dns.TypeAAAA`. -/
def typeAAAA : Nat := 28

/-- The query-type selection switch of `dnsResolver.LookupNetIP`
(dns.go lines 154-166): `"ip"` queries A and AAAA, `"ip4"` only A,
`"ip6"` only AAAA, anything else is an unsupported network. -/
def qTypesFor (network : String) : Option (List Nat) :=
  if network = "ip" then some [typeA, typeAAAA]
  else if network = "ip4" then some [typeA]
  else if network = "ip6" then some [typeAAAA]
  else none

/-- The `singleRequest` path of `dnsResolver.LookupNetIP` (dns.go lines
210-215): run the queries strictly in order, returning the first error
without issuing the remaining queries, otherwise collecting the answer
addresses in order. `tryOne q` is the outcome `tryOneName` would produce
for query type `q`. -/
def runQueriesSeq (tryOne : Nat → Except DNSError Reply) : List Nat → Except DNSError (List Addr)
  | [] => .ok []
  | q :: qs =>
      match tryOne q with
      | .error e => .error e
      | .ok reply =>
          match runQueriesSeq tryOne qs with
          | .error e => .error e
          | .ok rest => .ok (extractAddrs reply.answer ++ rest)

/-- The error a finished query contributes to `g.Wait()` (nothing for a
successful query). -/
def errPick : Except DNSError Reply → Option DNSError
  | .error e => some e
  | .ok _ => none

/-- One step of the answer accumulation: a successful query appends the
addresses extracted from its reply, a failed one contributes nothing. -/
def collectStep (acc : List Addr) : Except DNSError Reply → List Addr
  | .ok r => acc ++ extractAddrs r.answer
  | .error _ => acc

/-- The addresses the goroutines append, in completion order. -/
def collectAnswers (outs : List (Except DNSError Reply)) : List Addr :=
  outs.foldl collectStep []

/-- The errgroup path of `dnsResolver.LookupNetIP` (dns.go lines 216-229):
all queries run concurrently; `sched` lists the indices into `qTypes` in
the order the goroutines complete. `g.Wait()` surfaces the first error in
completion order, in which case the collected addresses are discarded;
otherwise the addresses accumulate in completion order. -/
def runQueriesPar (tryOne : Nat → Except DNSError Reply) (qTypes : List Nat)
    (sched : List Nat) : Except DNSError (List Addr) :=
  let outs := (sched.filterMap fun i => qTypes.get? i).map tryOne
  match outs.findSome? errPick with
  | some e => .error e
  | none => .ok (collectAnswers outs)

/-- `dnsResolver.LookupNetIP` (dns.go lines 139-247): validate the host
name, select the query types from `network`, run the queries (sequentially
when `singleRequest` is set, otherwise concurrently with completion order
`sched`), and return the collected addresses — passed through the RFC 6724
ordering `sort` unless the network is `"ip4"` — when any were collected,
the first error otherwise, else a synthesized not-found error. -/
def dnsLookupNetIP (sort : List Addr → List Addr) (network : String) (host : String)
    (tryOne : Nat → Except DNSError Reply) (singleRequest : Bool) (sched : List Nat) :
    Except DNSError (List Addr) :=
  let dnsErr : DNSError := { name := host }
  if ¬ isDomainName host then
    .error (extendDNSError dnsErr { err := errNoSuchHostMsg, isNotFound := true })
  else
    match qTypesFor network with
    | none => .error (extendDNSError dnsErr { err := errUnsupportedNetworkMsg })
    | some qTypes =>
        match (if singleRequest then runQueriesSeq tryOne qTypes
               else runQueriesPar tryOne qTypes sched) with
        | .error e => .error e
        | .ok addrs =>
            if addrs.length > 0 then
              .ok (if network ≠ "ip4" then sort addrs else addrs)
            else
              .error (extendDNSError dnsErr { err := errNoSuchHostMsg, isNotFound := true })

/-- The outcome of one network primitive (a dial, a TLS handshake, or a
query exchange): success with a value, or failure with an error message
and the timeout classification `isTimeout` would report for it. -/
inductive NetResult (α : Type) where
  | ok (v : α)
  | err (msg : String) (timeout : Bool)
deriving DecidableEq

/-- `dns.RcodeToString` on the codes that occur here. -/
def rcodeToString (rcode : Nat) : String :=
  if rcode = 0 then "NOERROR"
  else if rcode = 1 then "FORMERR"
  else if rcode = 2 then "SERVFAIL"
  else if rcode = 3 then "NXDOMAIN"
  else if rcode = 4 then "NOTIMP"
  else if rcode = 5 then "REFUSED"
  else ""

/-- The message of the `ServerMisbehaving` error built at dns.go lines
304-309. -/
def serverMisbehavingMsg (rcode : Nat) : String :=
  "unexpected return code " ++ rcodeToString rcode ++ ": " ++ errServerMisbehavingMsg

/-- The reply interpretation switch of `dnsResolver.tryOneName`
(dns.go lines 286-310): an exchange failure is temporary; response code 0
(`RcodeSuccess`) yields the reply; code 3 (`RcodeNameError`) yields a
not-found error; any other code yields `ServerMisbehaving`, temporary
exactly for code 2 (`RcodeServerFailure`). -/
def tryOneNameExchange (dnsErr : DNSError) (exchangeRes : NetResult Reply) :
    Except DNSError Reply :=
  match exchangeRes with
  | .err msg tmo =>
      .error (extendDNSError dnsErr { err := msg, isTimeout := tmo, isTemporary := true })
  | .ok reply =>
      if reply.rcode = 0 then .ok reply
      else if reply.rcode = 3 then
        .error (extendDNSError dnsErr { err := errNoSuchHostMsg, isNotFound := true })
      else
        .error (extendDNSError dnsErr
          { err := serverMisbehavingMsg reply.rcode, isTemporary := reply.rcode == 2 })

/-- `dnsResolver.tryOneName` (dns.go lines 249-311): dial the server
(failures are temporary), run the TLS handshake when the transport string
ends in `"-tls"` (failures are not marked temporary), then exchange the
query and interpret the reply. The network outcomes are passed in as
explicit parameters. -/
def tryOneName (netStr : String) (name : String) (serverStr : String)
    (dialRes : NetResult Unit) (handshakeRes : NetResult Unit)
    (exchangeRes : NetResult Reply) : Except DNSError Reply :=
  let dnsErr : DNSError := { name := name, server := serverStr }
  match dialRes with
  | .err msg tmo =>
      .error (extendDNSError dnsErr { err := msg, isTimeout := tmo, isTemporary := true })
  | .ok _ =>
      if "-tls".data.isSuffixOf netStr.data then
        match handshakeRes with
        | .err msg tmo =>
            .error (extendDNSError dnsErr { err := msg, isTimeout := tmo })
        | .ok _ => tryOneNameExchange dnsErr exchangeRes
      else tryOneNameExchange dnsErr exchangeRes

/-- The name-selection step of the `relativeResolver.LookupNetIP` variant
at src/unnamed/part_013 lines 66-79: when the host has fewer dots than the
`ndots` threshold (a trailing dot counts as a dot, and is not otherwise
consulted), try the host joined with each search suffix, keeping the
syntactically valid joins; otherwise the fully qualified host alone. -/
def relativeNamesV0 (search : List String) (ndots : Nat) (host : String) : List String :=
  if countDots host < ndots then
    (search.map (joinHostDomain host)).filter isDomainName
  else [fqdn host]

/-- The name-selection step of the later `relativeResolver.LookupNetIP`
variant (the one with the explicit trailing-dot test, lines 145-158 of its
snapshot): a host that already ends in a trailing dot is always looked up
as-is; otherwise, fewer dots than `ndots` triggers search expansion. -/
def relativeNames (search : List String) (ndots : Nat) (host : String) : List String :=
  if ¬ endsWithDot host ∧ countDots host < ndots then
    (search.map (joinHostDomain host)).filter isDomainName
  else [fqdn host]

/-- The lookup loop of the part_013 `relativeResolver.LookupNetIP`
(lines 81-99): try each candidate name in order, return the first
success; on total failure return the first error, or a synthesized
not-found error when no candidate was tried. -/
def relativeTryV0 (inner : String → Except DNSError (List Addr)) (host : String) :
    List String → Option DNSError → Except DNSError (List Addr)
  | [], firstErr =>
      match firstErr with
      | some e => .error e
      | none => .error (chainNotFound host)
  | n :: rest, firstErr =>
      match inner n with
      | .ok addrs => .ok addrs
      | .error e => relativeTryV0 inner host rest
          (match firstErr with | none => some e | some e0 => some e0)

/-- `relativeResolver.LookupNetIP`, part_013 variant: name selection
followed by the first-error lookup loop. `inner` gives the outcome of the
inner resolver for each candidate name. -/
def relativeLookupNetIPV0 (inner : String → Except DNSError (List Addr))
    (search : List String) (ndots : Nat) (host : String) : Except DNSError (List Addr) :=
  relativeTryV0 inner host (relativeNamesV0 search ndots host) none

/-- The lookup loop of the later `relativeResolver.LookupNetIP` variant
(lines 160-169 of its snapshot): try each candidate in order, return the
first success, otherwise `nil, errors.Join(errs...)`. -/
def relativeTry (inner : String → Except DNSError (List Addr)) :
    List String → List GoError → Except GoError (List Addr)
  | [], errs =>
      match joinErrors errs with
      | none => .ok []
      | some e => .error e
  | n :: rest, errs =>
      match inner n with
      | .ok addrs => .ok addrs
      | .error e => relativeTry inner rest (errs ++ [.dns e])

/-- `relativeResolver.LookupNetIP`, later variant (with the trailing-dot
test): name selection followed by the joined-errors lookup loop. -/
def relativeLookupNetIP (inner : String → Except DNSError (List Addr))
    (search : List String) (ndots : Nat) (host : String) : Except GoError (List Addr) :=
  relativeTry inner (relativeNames search ndots host) []

/-- The IPv4/IPv6 partition of `dns64Resolver.LookupNetIP` (dns64.go lines
65-72): addresses that unmap to IPv4 are collected unmapped; all others
count as native IPv6. -/
def dns64V4Addrs (addrs : List Addr) : List Addr :=
  (addrs.filter (fun a => a.unmap.is4)).map Addr.unmap

/-- The native-IPv6 side of the partition at dns64.go lines 65-72. -/
def dns64V6Addrs (addrs : List Addr) : List Addr :=
  addrs.filter (fun a => ¬ a.unmap.is4)

/-- `dns64Resolver.LookupNetIP` (dns64.go lines 59-98): resolve `host` for
network `"ip"` through the inner resolver (whose outcome is `inner`),
partition into IPv4/IPv6; `"ip4"` returns the IPv4 part unsorted; when no
native IPv6 address exists, synthesize one per IPv4 address under the
configured DNS64 `Prefix` address `p`; `"ip6"` returns the (possibly
synthesized) IPv6 addresses, `"ip"` both parts, each passed through the
RFC 6724 ordering `sort`. -/
def dns64LookupNetIP (sort : List Addr → List Addr) (p : Addr) (network : String)
    (inner : Except DNSError (List Addr)) : Except DNSError (List Addr) :=
  match inner with
  | .error e => .error e
  | .ok addrs =>
      let ipv4Addrs := dns64V4Addrs addrs
      let ipv6Addrs := dns64V6Addrs addrs
      if network = "ip4" then .ok ipv4Addrs
      else
        let ipv6Addrs := if ipv6Addrs.isEmpty then ipv4Addrs.map (synthesizeAddr p) else ipv6Addrs
        let addrs := if network = "ip6" then ipv6Addrs else ipv4Addrs ++ ipv6Addrs
        .ok (sort addrs)

/-- `HostsResolver.LookupNetIP` (hosts.go lines 95-127): look the
fully-qualified host up in the name table (a missing entry is a not-found
error), validate the network, filter the addresses by family, and sort
(via the RFC 6724 ordering `sort`) only when the network is not `"ip4"`
and the filtered list is non-empty. The filtered list is returned with a
nil error even when it is empty. -/
def hostsLookupNetIP (sort : List Addr → List Addr)
    (table : List (String × List Addr)) (network : String) (host : String) :
    Except DNSError (List Addr) :=
  let dnsErr : DNSError := { name := host }
  match (table.find? (fun kv => kv.fst = fqdn host)).map Prod.snd with
  | none => .error (extendDNSError dnsErr { err := errNoSuchHostMsg, isNotFound := true })
  | some allAddrs =>
      if network ≠ "ip" ∧ network ≠ "ip4" ∧ network ≠ "ip6" then
        .error (extendDNSError dnsErr { err := errUnsupportedNetworkMsg })
      else
        let addrs := filterAddresses allAddrs network
        if network ≠ "ip4" ∧ addrs.length > 0 then .ok (sort addrs) else .ok addrs

/-- `literalResolver.LookupNetIP` (the snapshot cited alongside
file_resolver_test.go, lines 68-102): `localhost` resolves to the IPv6 and
IPv4 loopbacks, an IP literal to itself (`parseAddr` stands for
`netip.ParseAddr` on the host string); after validating the network the
candidates are filtered by family, and an empty filtered list is a
not-found error. -/
def literalLookupNetIP (parseAddr : String → Option Addr) (network : String)
    (host : String) : Except DNSError (List Addr) :=
  let addrs0 : List Addr := if fqdn host = "localhost." then [ipv6Loopback, ipv4Loopback] else []
  let addrs1 : List Addr :=
    match parseAddr host with
    | some a => [a]
    | none => addrs0
  if network ≠ "ip" ∧ network ≠ "ip4" ∧ network ≠ "ip6" then
    .error { err := errUnsupportedNetworkMsg, name := host }
  else
    let addrs := filterAddresses addrs1 network
    if addrs.isEmpty then
      .error { err := errNoSuchHostMsg, name := host, isNotFound := true }
    else .ok addrs

/-- The state of one worker goroutine spawned by
`parallelResolver.LookupNetIP` (parallel.go lines 53-66): not yet
delivered its resolver outcome (`pending`); succeeded and blocked on the
unbuffered `results` channel send (`sending`); past the send, still to
record its error and run the deferred `wg.Done()` (`afterSend`); or fully
finished (`done`). A failing worker skips the send. -/
inductive PTask where
  | pending
  | sending (addrs : List Addr)
  | afterSend
  | done
deriving DecidableEq

/-- The value `parallelResolver.LookupNetIP` returns: a successful address
list received from `results`, the `errors.Join` of the recorded errors
(when `results` was closed), or the derived context's error. -/
inductive PRet where
  | success (addrs : List Addr)
  | allFailed (errs : List (Option DNSError))
  | ctxError
deriving DecidableEq

/-- The state of the calling goroutine: blocked in the final `select`
(parallel.go lines 68-77) or already returned. -/
inductive PMain where
  | waiting
  | returned (r : PRet)
deriving DecidableEq

/-- A configuration of the `parallelResolver.LookupNetIP` execution: the
worker states, the `errs` slice (appended to in completion order; a `none`
entry is the nil error a successful worker appends), whether the closer
goroutine has closed `results`, whether the parent context was cancelled,
and the caller's state. -/
structure PCfg where
  tasks : List PTask
  errs : List (Option DNSError)
  resultsClosed : Bool
  parentCancelled : Bool
  main : PMain
deriving DecidableEq

/-- The initial configuration: `n` workers spawned, nothing recorded. -/
def pInit (n : Nat) : PCfg where
  tasks := List.replicate n .pending
  errs := []
  resultsClosed := false
  parentCancelled := false
  main := .waiting

/-- The error a worker records for its outcome (`nil` for success). -/
def errOpt : Except DNSError (List Addr) → Option DNSError
  | .ok _ => none
  | .error e => some e

/-- The interleaving semantics of `parallelResolver.LookupNetIP`
(parallel.go lines 35-78), parametrised by the outcome `out i` each inner
resolver would produce. A failing worker records its error and counts
down; a succeeding worker must first rendezvous on the unbuffered
`results` channel with the still-waiting caller — if the caller has
already returned, no rule ever applies to it again (the goroutine leak).
The closer goroutine closes `results` once every worker has finished; the
caller's `select` takes a delivered success, the closed-channel branch
(returning the joined errors), or the context branch once the parent
context is cancelled. -/
inductive PStep (out : List (Except DNSError (List Addr))) : PCfg → PCfg → Prop where
  | runErr (i : Nat) (e : DNSError) (c : PCfg)
      (ht : c.tasks.get? i = some .pending)
      (ho : out.get? i = some (.error e)) :
      PStep out c { c with tasks := c.tasks.set i .done, errs := c.errs ++ [some e] }
  | runOk (i : Nat) (addrs : List Addr) (c : PCfg)
      (ht : c.tasks.get? i = some .pending)
      (ho : out.get? i = some (.ok addrs)) :
      PStep out c { c with tasks := c.tasks.set i (.sending addrs) }
  | deliver (i : Nat) (addrs : List Addr) (c : PCfg)
      (ht : c.tasks.get? i = some (.sending addrs))
      (hm : c.main = .waiting) :
      PStep out c { c with tasks := c.tasks.set i .afterSend,
                           main := .returned (.success addrs) }
  | finishSend (i : Nat) (c : PCfg)
      (ht : c.tasks.get? i = some .afterSend) :
      PStep out c { c with tasks := c.tasks.set i .done, errs := c.errs ++ [none] }
  | closeResults (c : PCfg)
      (hall : ∀ t ∈ c.tasks, t = PTask.done)
      (hc : c.resultsClosed = false) :
      PStep out c { c with resultsClosed := true }
  | recvClosed (c : PCfg)
      (hc : c.resultsClosed = true)
      (hm : c.main = .waiting) :
      PStep out c { c with main := .returned (.allFailed c.errs) }
  | cancelParent (c : PCfg)
      (h : c.parentCancelled = false) :
      PStep out c { c with parentCancelled := true }
  | ctxDone (c : PCfg)
      (hp : c.parentCancelled = true)
      (hm : c.main = .waiting) :
      PStep out c { c with main := .returned .ctxError }

/-- Reachability of a configuration from the start of one
`parallelResolver.LookupNetIP` call with inner outcomes `out`. -/
def PReach (out : List (Except DNSError (List Addr))) (c : PCfg) : Prop :=
  Relation.ReflTransGen (PStep out) (pInit out.length) c

/-! ## Supporting lemmas -/

theorem Addr.is4In6_length {a : Addr} (h : a.is4In6 = true) : a.bytes.length = 16 := by
  have h' := h
  unfold Addr.is4In6 at h'
  have := (Bool.and_eq_true _ _).mp h'
  simpa using this.1

theorem Addr.unmap_unmap (a : Addr) : a.unmap.unmap = a.unmap := by
  unfold Addr.unmap
  by_cases h : a.is4In6 = true
  · simp only [h, if_true]
    have hlen : (Addr.mk (a.bytes.drop 12)).bytes.length = 4 := by
      simp [Addr.is4In6_length h]
    have : (Addr.mk (a.bytes.drop 12)).is4In6 = false := by
      unfold Addr.is4In6
      simp [hlen]
    simp [this]
  · simp only [Bool.not_eq_true] at h
    simp [h]

theorem Addr.unmap_eq_self_of_not_is4 {a : Addr} (h : a.unmap.is4 = false) : a.unmap = a := by
  unfold Addr.unmap at h ⊢
  by_cases h6 : a.is4In6 = true
  · exfalso
    simp only [h6, if_true] at h
    unfold Addr.is4 at h
    simp [Addr.is4In6_length h6] at h
  · simp only [Bool.not_eq_true] at h6
    simp [h6]

theorem synthesizeAddr_of_is4 {a : Addr} (p : Addr) (h : a.unmap.is4 = true) :
    synthesizeAddr p a = ⟨p.bytes.take 12 ++ a.unmap.bytes⟩ := by
  unfold synthesizeAddr
  simp [h]

theorem synthesizeAddr_of_not_is4 {a : Addr} (p : Addr) (h : a.unmap.is4 = false) :
    synthesizeAddr p a = a.unmap := by
  unfold synthesizeAddr
  simp [h]

/-- C10: the DNS64 address-synthesis function is the identity on every
address that is not an IPv4 address after unmapping, and for every
configured prefix address (an IPv6 address, hence 16 bytes) it is
idempotent. -/
theorem synthesizeAddr_identity_idempotent (p a : Addr) :
    (a.unmap.is4 = false → synthesizeAddr p a = a) ∧
    (p.bytes.length = 16 →
      synthesizeAddr p (synthesizeAddr p a) = synthesizeAddr p a) := by
  constructor
  · intro h
    rw [synthesizeAddr_of_not_is4 p h]
    exact Addr.unmap_eq_self_of_not_is4 h
  · intro hp
    by_cases h4 : a.unmap.is4 = true
    · rw [synthesizeAddr_of_is4 p h4]
      have hum : a.unmap.bytes.length = 4 := by
        have := h4
        unfold Addr.is4 at this
        simpa using this
      have htake : (p.bytes.take 12).length = 12 := by simp [hp]
      set b : Addr := ⟨p.bytes.take 12 ++ a.unmap.bytes⟩ with hb
      have hblen : b.bytes.length = 16 := by simp [hb, htake, hum]
      by_cases h6 : b.is4In6 = true
      · have hdrop : b.bytes.drop 12 = a.unmap.bytes := by
          have hdl := List.drop_left (p.bytes.take 12) a.unmap.bytes
          rw [htake] at hdl
          simpa [hb] using hdl
        have hbu : b.unmap = a.unmap := by
          have hstep : b.unmap = ⟨b.bytes.drop 12⟩ := by
            unfold Addr.unmap
            rw [if_pos h6]
          rw [hstep, hdrop]
        rw [synthesizeAddr_of_is4 p (by rw [hbu]; exact h4)]
        rw [hbu]
      · have hbu : b.unmap = b := by
          unfold Addr.unmap
          simp only [Bool.not_eq_true] at h6
          simp [h6]
        have hb4 : b.unmap.is4 = false := by
          rw [hbu]
          unfold Addr.is4
          simp [hblen]
        rw [synthesizeAddr_of_not_is4 p hb4, hbu]
    · simp only [Bool.not_eq_true] at h4
      rw [synthesizeAddr_of_not_is4 p h4]
      have h4' : a.unmap.unmap.is4 = false := by
        rw [Addr.unmap_unmap]
        exact h4
      rw [synthesizeAddr_of_not_is4 p h4', Addr.unmap_unmap]

/-- Witness for C10 at concrete inputs: the IPv6 literal
`2001:db8::1` is left unchanged by synthesis under the well-known DNS64
prefix, and synthesis of `10.0.0.1` under that (16-byte) prefix is
idempotent. -/
theorem synthesizeAddr_identity_idempotent_witness :
    synthesizeAddr wellKnownPfx ⟨[0x20, 0x01, 0x0d, 0xb8, 0, 0, 0, 0, 0, 0, 0, 0, 0, 0, 0, 1]⟩ =
        ⟨[0x20, 0x01, 0x0d, 0xb8, 0, 0, 0, 0, 0, 0, 0, 0, 0, 0, 0, 1]⟩ ∧
    synthesizeAddr wellKnownPfx (synthesizeAddr wellKnownPfx ⟨[10, 0, 0, 1]⟩) =
        synthesizeAddr wellKnownPfx ⟨[10, 0, 0, 1]⟩ :=
  ⟨(synthesizeAddr_identity_idempotent wellKnownPfx
      ⟨[0x20, 0x01, 0x0d, 0xb8, 0, 0, 0, 0, 0, 0, 0, 0, 0, 0, 0, 1]⟩).1 (by decide),
   (synthesizeAddr_identity_idempotent wellKnownPfx ⟨[10, 0, 0, 1]⟩).2 (by decide)⟩

theorem dns64_ip6_eval (sort : List Addr → List Addr) (p : Addr) (addrs : List Addr) :
    dns64LookupNetIP sort p "ip6" (.ok addrs) =
      .ok (sort (if (dns64V6Addrs addrs).isEmpty then
        (dns64V4Addrs addrs).map (synthesizeAddr p) else dns64V6Addrs addrs)) := by
  unfold dns64LookupNetIP
  simp

theorem dns64_ip_eval (sort : List Addr → List Addr) (p : Addr) (addrs : List Addr) :
    dns64LookupNetIP sort p "ip" (.ok addrs) =
      .ok (sort (dns64V4Addrs addrs ++ (if (dns64V6Addrs addrs).isEmpty then
        (dns64V4Addrs addrs).map (synthesizeAddr p) else dns64V6Addrs addrs))) := by
  unfold dns64LookupNetIP
  simp

theorem dns64V6Addrs_eq_nil {addrs : List Addr} (h : ∀ a ∈ addrs, a.unmap.is4 = true) :
    dns64V6Addrs addrs = [] := by
  unfold dns64V6Addrs
  rw [List.filter_eq_nil_iff]
  intro a ha
  simp [h a ha]

theorem mem_synth_of_mem {addrs : List Addr} {a : Addr} (p : Addr)
    (ha : a ∈ addrs) (h4 : a.unmap.is4 = true) :
    synthesizeAddr p a.unmap ∈ (dns64V4Addrs addrs).map (synthesizeAddr p) := by
  apply List.mem_map_of_mem
  unfold dns64V4Addrs
  apply List.mem_map_of_mem
  rw [List.mem_filter]
  exact ⟨ha, by simp [h4]⟩

theorem synth_unmap_bytes {a : Addr} (p : Addr) (h4 : a.unmap.is4 = true) :
    (synthesizeAddr p a.unmap).bytes = p.bytes.take 12 ++ a.unmap.bytes := by
  have h4' : a.unmap.unmap.is4 = true := by rw [Addr.unmap_unmap]; exact h4
  rw [synthesizeAddr_of_is4 p h4', Addr.unmap_unmap]

/-- C6: for a DNS64 lookup with network `"ip6"` or `"ip"` whose inner
`"ip"` lookup succeeds, (1) if no returned address is natively IPv6, the
result contains for each IPv4 address the synthesized address made of the
first 12 prefix bytes followed by the 4 IPv4 bytes; (2) if at least one
native IPv6 address is present, nothing is synthesized — the result is a
permutation of the native IPv6 addresses (network `"ip6"`) or of the
IPv4 and IPv6 partitions (network `"ip"`), and every native IPv6 address
appears in it unchanged. -/
theorem dns64_synthesis (sort : List Addr → List Addr)
    (hsort : ∀ l : List Addr, (sort l).Perm l) (p : Addr) (network : String)
    (hnet : network = "ip6" ∨ network = "ip") (addrs : List Addr) :
    ((∀ a ∈ addrs, a.unmap.is4 = true) →
      ∃ out, dns64LookupNetIP sort p network (.ok addrs) = .ok out ∧
        ∀ a ∈ addrs, synthesizeAddr p a.unmap ∈ out ∧
          (synthesizeAddr p a.unmap).bytes = p.bytes.take 12 ++ a.unmap.bytes) ∧
    ((∃ a ∈ addrs, a.unmap.is4 = false) →
      ∃ out, dns64LookupNetIP sort p network (.ok addrs) = .ok out ∧
        out.Perm (if network = "ip6" then dns64V6Addrs addrs
                  else dns64V4Addrs addrs ++ dns64V6Addrs addrs) ∧
        ∀ a ∈ addrs, a.unmap.is4 = false → a ∈ out) := by
  constructor
  · intro hall
    have h6 : dns64V6Addrs addrs = [] := dns64V6Addrs_eq_nil hall
    rcases hnet with hn | hn <;> subst hn
    · refine ⟨sort ((dns64V4Addrs addrs).map (synthesizeAddr p)), ?_, ?_⟩
      · rw [dns64_ip6_eval, h6]
        simp
      · intro a ha
        refine ⟨(hsort _).mem_iff.mpr (mem_synth_of_mem p ha (hall a ha)), ?_⟩
        exact synth_unmap_bytes p (hall a ha)
    · refine ⟨sort (dns64V4Addrs addrs ++ (dns64V4Addrs addrs).map (synthesizeAddr p)),
        ?_, ?_⟩
      · rw [dns64_ip_eval, h6]
        simp
      · intro a ha
        refine ⟨(hsort _).mem_iff.mpr ?_, synth_unmap_bytes p (hall a ha)⟩
        exact List.mem_append_right _ (mem_synth_of_mem p ha (hall a ha))
  · rintro ⟨a0, ha0, h40⟩
    have hmem : a0 ∈ dns64V6Addrs addrs := by
      unfold dns64V6Addrs
      rw [List.mem_filter]
      exact ⟨ha0, by simp [h40]⟩
    have hne : (dns64V6Addrs addrs).isEmpty = false := by
      rw [List.isEmpty_eq_false_iff_exists_mem]
      exact ⟨a0, hmem⟩
    rcases hnet with hn | hn <;> subst hn
    · refine ⟨sort (dns64V6Addrs addrs), ?_, ?_, ?_⟩
      · rw [dns64_ip6_eval, hne]
        simp
      · simpa using hsort _
      · intro a ha h4a
        refine (hsort _).mem_iff.mpr ?_
        unfold dns64V6Addrs
        rw [List.mem_filter]
        exact ⟨ha, by simp [h4a]⟩
    · refine ⟨sort (dns64V4Addrs addrs ++ dns64V6Addrs addrs), ?_, ?_, ?_⟩
      · rw [dns64_ip_eval, hne]
        simp
      · simpa using hsort _
      · intro a ha h4a
        refine (hsort _).mem_iff.mpr (List.mem_append_right _ ?_)
        unfold dns64V6Addrs
        rw [List.mem_filter]
        exact ⟨ha, by simp [h4a]⟩

/-- Witness for C6, the scenario of the DNS64 unit test: resolving
`10.0.0.1` for `"ip6"` under the well-known prefix yields the synthesized
`64:ff9b::a00:1`, whose bytes are the 12 prefix bytes followed by
`10.0.0.1`. -/
theorem dns64_synthesis_witness :
    ∃ out, dns64LookupNetIP id wellKnownPfx "ip6" (.ok [⟨[10, 0, 0, 1]⟩]) = .ok out ∧
      ∀ a ∈ [(⟨[10, 0, 0, 1]⟩ : Addr)], synthesizeAddr wellKnownPfx a.unmap ∈ out ∧
        (synthesizeAddr wellKnownPfx a.unmap).bytes =
          wellKnownPfx.bytes.take 12 ++ a.unmap.bytes :=
  (dns64_synthesis id (fun l => List.Perm.refl l) wellKnownPfx "ip6" (Or.inl rfl)
    [⟨[10, 0, 0, 1]⟩]).1 (by decide)

/-- C7 counterexample: a host present in the hosts table with only an
IPv4 address, looked up for network `"ip6"`, yields an empty address list
with a nil error from `HostsResolver.LookupNetIP` — not a not-found
`DNSError` as the claim states. -/
theorem hosts_family_mismatch_counterexample :
    hostsLookupNetIP id [("known.local.", [⟨[192, 168, 1, 11]⟩])] "ip6" "known.local" =
      .ok [] := by
  decide

/-- C7 amended: when the host is known but none of its addresses match
the requested family, the Literal resolver returns a `DNSError` with
`isNotFound` set, but the Hosts resolver returns an empty address list
with a nil error. -/
theorem hosts_literal_family_mismatch
    (sort : List Addr → List Addr) (table : List (String × List Addr))
    (network host : String) (allAddrs : List Addr)
    (hvalid : network = "ip" ∨ network = "ip4" ∨ network = "ip6")
    (hfound : (table.find? (fun kv => kv.fst = fqdn host)).map Prod.snd = some allAddrs)
    (hempty : filterAddresses allAddrs network = []) :
    hostsLookupNetIP sort table network host = .ok [] ∧
    ∀ (parseAddr : String → Option Addr) (a : Addr),
      parseAddr host = some a → filterAddresses [a] network = [] →
      literalLookupNetIP parseAddr network host =
        .error { err := errNoSuchHostMsg, name := host, isNotFound := true } := by
  have hnot : ¬ (network ≠ "ip" ∧ network ≠ "ip4" ∧ network ≠ "ip6") := by
    rcases hvalid with h | h | h <;> subst h <;> simp
  constructor
  · unfold hostsLookupNetIP
    rw [hfound]
    dsimp only
    rw [if_neg hnot, hempty]
    have hlen : ¬ (network ≠ "ip4" ∧ (List.length ([] : List Addr) > 0)) := by
      simp
    rw [if_neg hlen]
  · intro parseAddr a hpa hfa
    unfold literalLookupNetIP
    rw [hpa]
    dsimp only
    rw [if_neg hnot, hfa]
    simp

/-- Witness for C7 at concrete inputs: an IPv4-only host queried for
`"ip6"` gives an empty nil-error result from the hosts resolver and a
not-found error from the literal resolver. -/
theorem hosts_literal_family_mismatch_witness :
    hostsLookupNetIP id [("known.local.", [⟨[10, 0, 0, 2]⟩])] "ip6" "known.local" = .ok [] ∧
    literalLookupNetIP (fun _ => some ⟨[10, 0, 0, 2]⟩) "ip6" "known.local" =
      .error { err := errNoSuchHostMsg, name := "known.local", isNotFound := true } := by
  have h := hosts_literal_family_mismatch id [("known.local.", [⟨[10, 0, 0, 2]⟩])]
    "ip6" "known.local" [⟨[10, 0, 0, 2]⟩]
    (Or.inr (Or.inr rfl)) (by decide) (by decide)
  exact ⟨h.1, h.2 (fun _ => some ⟨[10, 0, 0, 2]⟩) ⟨[10, 0, 0, 2]⟩ rfl (by decide)⟩

theorem sequentialGo_all_error (es : List GoError) (acc : List GoError) :
    sequentialGo (es.map Except.error) acc =
      (match joinErrors (acc ++ es) with
       | none => Except.ok []
       | some e => Except.error e) := by
  induction es generalizing acc with
  | nil => simp [sequentialGo]
  | cons e es ih =>
      rw [List.map_cons]
      show sequentialGo (es.map Except.error) (acc ++ [e]) = _
      rw [ih]
      simp

theorem sequentialGo_first_ok (pre rest : List LookupOutcome) (acc : List GoError)
    (v : List Addr) (hpre : ∀ o ∈ pre, ∃ e, o = Except.error e) :
    sequentialGo (pre ++ Except.ok v :: rest) acc = .ok v := by
  induction pre generalizing acc with
  | nil => rfl
  | cons o pre ih =>
      obtain ⟨e, he⟩ := hpre o (List.mem_cons_self o pre)
      subst he
      show sequentialGo (pre ++ Except.ok v :: rest) (acc ++ [e]) = _
      exact ih _ (fun o ho => hpre o (List.mem_cons_of_mem _ ho))

theorem chainGo_first_ok (host : String) (pre rest : List LookupOutcome)
    (acc : Option GoError) (v : List Addr)
    (hpre : ∀ o ∈ pre, ∃ e, o = Except.error e) :
    chainGo host (pre ++ Except.ok v :: rest) acc = .ok v := by
  induction pre generalizing acc with
  | nil => rfl
  | cons o pre ih =>
      obtain ⟨e, he⟩ := hpre o (List.mem_cons_self o pre)
      subst he
      show chainGo host (pre ++ Except.ok v :: rest) _ = _
      exact ih _ (fun o ho => hpre o (List.mem_cons_of_mem _ ho))

theorem chainGo_all_error (host : String) (es : List GoError) (e0 : GoError) :
    chainGo host (es.map Except.error) (some e0) = .error e0 := by
  induction es with
  | nil => rfl
  | cons e es ih =>
      rw [List.map_cons]
      show chainGo host (es.map Except.error) (some e0) = _
      exact ih

/-- C4 amended: both sequential variants try the inner resolvers strictly
in order and return the first success. On total failure over a non-empty
list, `sequentialResolver` returns the join of all inner errors while
`chainResolver` returns only the first error. On an empty resolver list,
`sequentialResolver` returns a nil error with no addresses
(`errors.Join` of nothing is nil), while `chainResolver` returns the
synthesized not-found error. -/
theorem sequential_chain_lookup (host : String) :
    (∀ (pre rest : List LookupOutcome) (v : List Addr),
      (∀ o ∈ pre, ∃ e, o = Except.error e) →
      sequentialLookupNetIP (pre ++ Except.ok v :: rest) = .ok v ∧
      chainLookupNetIP host (pre ++ Except.ok v :: rest) = .ok v) ∧
    (sequentialLookupNetIP [] = .ok [] ∧
      chainLookupNetIP host [] = .error (.dns (chainNotFound host))) ∧
    (∀ (e0 : GoError) (es : List GoError),
      sequentialLookupNetIP ((e0 :: es).map Except.error) =
          .error (.joined (e0 :: es)) ∧
      chainLookupNetIP host ((e0 :: es).map Except.error) = .error e0) := by
  refine ⟨?_, ⟨rfl, rfl⟩, ?_⟩
  · intro pre rest v hpre
    exact ⟨sequentialGo_first_ok pre rest [] v hpre,
      chainGo_first_ok host pre rest none v hpre⟩
  · intro e0 es
    constructor
    · rw [sequentialLookupNetIP, sequentialGo_all_error]
      simp [joinErrors]
    · rw [chainLookupNetIP, List.map_cons]
      show chainGo host (es.map Except.error) (some e0) = _
      exact chainGo_all_error host es e0

/-- C4 counterexample: with an empty inner-resolver list,
`sequentialResolver.LookupNetIP` returns a nil error (a plain empty
success), not a non-nil synthesized not-found error; and with two failing
inner resolvers, `chainResolver.LookupNetIP` returns only the first
error, not a combined error containing both. -/
theorem sequential_chain_counterexample :
    sequentialLookupNetIP [] = .ok [] ∧
    chainLookupNetIP "unresolvable.test"
        [Except.error (.dns { err := "first error" }),
         Except.error (.dns { err := "second error" })] =
      .error (.dns { err := "first error" }) :=
  ⟨rfl, rfl⟩

/-- Witness for C4 at concrete inputs: a single succeeding resolver wins
in both variants, and a single failing resolver yields the joined error in
the sequential variant. -/
theorem sequential_chain_lookup_witness :
    sequentialLookupNetIP [Except.ok [⟨[10, 0, 0, 1]⟩]] = .ok [⟨[10, 0, 0, 1]⟩] ∧
    chainLookupNetIP "example.com" [Except.ok [⟨[10, 0, 0, 1]⟩]] = .ok [⟨[10, 0, 0, 1]⟩] ∧
    sequentialLookupNetIP [Except.error (.dns { err := "no such host" })] =
      .error (.joined [.dns { err := "no such host" }]) := by
  have h := sequential_chain_lookup "example.com"
  have h1 := h.1 [] [] [⟨[10, 0, 0, 1]⟩] (fun o ho => absurd ho (List.not_mem_nil o))
  have h3 := h.2.2 (.dns { err := "no such host" }) []
  exact ⟨h1.1, h1.2, h3.1⟩

theorem retryGo_one (inner : Nat → Except DNSError (List Addr)) (k : Nat) :
    retryGo inner k 1 = (inner k, k + 1) := by
  rfl

theorem retryGo_two_plus (inner : Nat → Except DNSError (List Addr)) (k fuel : Nat) :
    retryGo inner k (fuel + 2) =
      (match inner k with
       | .ok v => (Except.ok v, k + 1)
       | .error e =>
           if isTemporaryErr e then retryGo inner (k + 1) (fuel + 1)
           else (.error e, k + 1)) := by
  rfl

theorem retryGo_all_temporary (inner : Nat → Except DNSError (List Addr)) :
    ∀ (fuel k : Nat), 0 < fuel →
    (∀ i, k ≤ i → i < k + fuel → ∃ e, inner i = .error e ∧ e.isTemporary = true) →
    retryGo inner k fuel = (inner (k + fuel - 1), k + fuel) := by
  intro fuel
  induction fuel with
  | zero => intro k h0 _; exact absurd h0 (lt_irrefl 0)
  | succ m ih =>
      intro k _ h
      cases m with
      | zero => simp [retryGo_one]
      | succ m' =>
          obtain ⟨e, he, ht⟩ := h k (le_refl k) (by omega)
          rw [retryGo_two_plus, he]
          simp only [isTemporaryErr, ht, if_true]
          have hrec := ih (k + 1) (by omega) (fun i h1 h2 => h i (by omega) (by omega))
          rw [hrec]
          have h1 : k + 1 + (m' + 1) - 1 = k + (m' + 1 + 1) - 1 := by omega
          have h2 : k + 1 + (m' + 1) = k + (m' + 1 + 1) := by omega
          rw [h1, h2]

theorem retryGo_nontemporary (inner : Nat → Except DNSError (List Addr))
    (fuel k : Nat) (hf : 0 < fuel) (e : DNSError)
    (he : inner k = .error e) (ht : e.isTemporary = false) :
    retryGo inner k fuel = (.error e, k + 1) := by
  match fuel, hf with
  | 1, _ => rw [retryGo_one, he]
  | (m + 2), _ =>
      rw [retryGo_two_plus, he]
      simp only [isTemporaryErr, ht]
      rw [if_neg (by simp)]

theorem retryGo_first_ok (inner : Nat → Except DNSError (List Addr)) :
    ∀ (m fuel k : Nat) (v : List Addr), m < fuel →
    (∀ i, k ≤ i → i < k + m → ∃ e, inner i = .error e ∧ e.isTemporary = true) →
    inner (k + m) = .ok v →
    retryGo inner k fuel = (.ok v, k + m + 1) := by
  intro m
  induction m with
  | zero =>
      intro fuel k v hm _ hok
      simp only [Nat.add_zero] at hok
      match fuel, hm with
      | 1, _ => rw [retryGo_one, hok]
      | (f + 2), _ => rw [retryGo_two_plus, hok]
  | succ m' ih =>
      intro fuel k v hm h hok
      obtain ⟨e, he, ht⟩ := h k (le_refl k) (by omega)
      match fuel, hm with
      | (f + 2), _ =>
          rw [retryGo_two_plus, he]
          simp only [isTemporaryErr, ht, if_true]
          have hrec := ih (f + 1) (k + 1) v (by omega)
            (fun i h1 h2 => h i (by omega) (by omega))
            (by rw [show k + 1 + m' = k + (m' + 1) by omega]; exact hok)
          rw [hrec]
          have : k + 1 + m' + 1 = k + (m' + 1) + 1 := by omega
          rw [this]

/-- C3: with `attempts = n > 0`, the retry resolver (1) invokes the inner
resolver exactly `n` times and returns the last error when every
invocation fails with a temporary error; (2) makes exactly one invocation
and returns the error when the first invocation fails with a
non-temporary error; and (3) returns a success immediately — after
`k + 1` invocations when the first success comes at invocation `k`
(in particular one invocation when the first attempt succeeds). -/
theorem retry_classification (n : Nat) (hn : 0 < n)
    (inner : Nat → Except DNSError (List Addr)) :
    ((∀ i, i < n → ∃ e, inner i = .error e ∧ e.isTemporary = true) →
      retryLookupNetIP n inner = (inner (n - 1), n)) ∧
    (∀ e, inner 0 = .error e → e.isTemporary = false →
      retryLookupNetIP n inner = (.error e, 1)) ∧
    (∀ k v, k < n →
      (∀ i, i < k → ∃ e, inner i = .error e ∧ e.isTemporary = true) →
      inner k = .ok v → retryLookupNetIP n inner = (.ok v, k + 1)) := by
  refine ⟨?_, ?_, ?_⟩
  · intro h
    have := retryGo_all_temporary inner n 0 hn (fun i h1 h2 => h i (by omega))
    simpa using this
  · intro e he ht
    exact retryGo_nontemporary inner n 0 hn e he ht
  · intro k v hk h hok
    have := retryGo_first_ok inner k n 0 v hk (fun i h1 h2 => h i (by omega))
      (by simpa using hok)
    simpa using this

/-- Witness for C3, the retry scenarios of the spec: with `attempts = 3`,
an inner resolver that always fails with a temporary server-misbehaving
error is invoked exactly 3 times and the temporary error is returned,
while an inner resolver failing with non-temporary not-found is invoked
exactly once; an inner resolver succeeding immediately is invoked once. -/
theorem retry_classification_witness :
    retryLookupNetIP 3
        (fun _ => .error { err := "server misbehaving", isTemporary := true }) =
      (.error { err := "server misbehaving", isTemporary := true }, 3) ∧
    retryLookupNetIP 3
        (fun _ => .error { err := "no such host", isNotFound := true }) =
      (.error { err := "no such host", isNotFound := true }, 1) ∧
    retryLookupNetIP 3 (fun _ => .ok [⟨[10, 0, 0, 1]⟩]) = (.ok [⟨[10, 0, 0, 1]⟩], 1) := by
  refine ⟨?_, ?_, ?_⟩
  · exact (retry_classification 3 (by decide)
      (fun _ => .error { err := "server misbehaving", isTemporary := true })).1
      (fun i _ => ⟨_, rfl, rfl⟩)
  · exact (retry_classification 3 (by decide)
      (fun _ => .error { err := "no such host", isNotFound := true })).2.1
      { err := "no such host", isNotFound := true } rfl rfl
  · exact (retry_classification 3 (by decide) (fun _ => .ok [⟨[10, 0, 0, 1]⟩])).2.2
      0 [⟨[10, 0, 0, 1]⟩] (by decide) (fun i hi => absurd hi (by omega)) rfl

theorem getD_cons_eraseIdx_perm :
    ∀ (l : List α) (j : Nat), j < l.length → ∀ (d : α),
      (l.getD j d :: l.eraseIdx j).Perm l := by
  intro l
  induction l with
  | nil => intro j hj; simp at hj
  | cons x xs ih =>
      intro j hj d
      cases j with
      | zero => simp [List.getD]
      | succ j =>
          have hj' : j < xs.length := by simpa using hj
          have h1 : (x :: xs).getD (j + 1) d = xs.getD j d := by simp [List.getD]
          have h2 : (x :: xs).eraseIdx (j + 1) = x :: xs.eraseIdx j := rfl
          rw [h1, h2]
          exact (List.Perm.swap x (xs.getD j d) (xs.eraseIdx j)).trans
            ((ih j hj' d).cons x)

theorem shuffle_perm : ∀ (rands : List Nat) (xs : List α), (shuffle rands xs).Perm xs := by
  intro rands
  induction rands with
  | nil => intro xs; exact List.Perm.refl _
  | cons r rands ih =>
      intro xs
      cases xs with
      | nil => exact List.Perm.refl _
      | cons x xs =>
          show ((x :: xs).getD (r % (x :: xs).length) x ::
            shuffle rands ((x :: xs).eraseIdx (r % (x :: xs).length))).Perm (x :: xs)
          have hlt : r % (x :: xs).length < (x :: xs).length :=
            Nat.mod_lt _ (by simp)
          exact ((ih _).cons _).trans (getD_cons_eraseIdx_perm _ _ hlt x)

/-- C8: `roundRobinResolver.LookupNetIP` returns exactly the result of the
sequential resolver applied to the shuffled copy of its inner-resolver
list, and the shuffle is a permutation of that list (the stored list
itself is never written, only copied). -/
theorem roundRobin_refines_sequential (rands : List Nat)
    (outcomes : List LookupOutcome) :
    roundRobinLookupNetIP rands outcomes =
      sequentialLookupNetIP (shuffle rands outcomes) ∧
    (shuffle rands outcomes).Perm outcomes :=
  ⟨rfl, shuffle_perm rands outcomes⟩

/-- C2: classification of every DNS exchange outcome by `tryOneName`:
a reply with response code 0 yields the reply and no error; code 3
(NXDOMAIN) yields a not-found, non-temporary error; any other code yields
a `ServerMisbehaving` error whose temporary flag is set exactly for code 2
(SERVFAIL); a dial failure and an exchange failure yield temporary
errors; a TLS handshake failure yields a non-temporary error. -/
theorem tryOneName_classification (netStr name serverStr : String)
    (dialRes hsRes : NetResult Unit) (exRes : NetResult Reply) :
    (∀ msg tmo, dialRes = .err msg tmo →
      tryOneName netStr name serverStr dialRes hsRes exRes =
        .error (extendDNSError { name := name, server := serverStr }
          { err := msg, isTimeout := tmo, isTemporary := true }) ∧
      (extendDNSError { name := name, server := serverStr }
        { err := msg, isTimeout := tmo, isTemporary := true }).isTemporary = true) ∧
    (∀ msg tmo, dialRes = .ok () → "-tls".data.isSuffixOf netStr.data = true →
      hsRes = .err msg tmo →
      tryOneName netStr name serverStr dialRes hsRes exRes =
        .error (extendDNSError { name := name, server := serverStr }
          { err := msg, isTimeout := tmo }) ∧
      (extendDNSError { name := name, server := serverStr }
        { err := msg, isTimeout := tmo }).isTemporary = false) ∧
    (∀ msg tmo, dialRes = .ok () →
      ("-tls".data.isSuffixOf netStr.data = false ∨ hsRes = .ok ()) →
      exRes = .err msg tmo →
      tryOneName netStr name serverStr dialRes hsRes exRes =
        .error (extendDNSError { name := name, server := serverStr }
          { err := msg, isTimeout := tmo, isTemporary := true }) ∧
      (extendDNSError { name := name, server := serverStr }
        { err := msg, isTimeout := tmo, isTemporary := true }).isTemporary = true) ∧
    (∀ reply, dialRes = .ok () →
      ("-tls".data.isSuffixOf netStr.data = false ∨ hsRes = .ok ()) →
      exRes = .ok reply → reply.rcode = 0 →
      tryOneName netStr name serverStr dialRes hsRes exRes = .ok reply) ∧
    (∀ reply, dialRes = .ok () →
      ("-tls".data.isSuffixOf netStr.data = false ∨ hsRes = .ok ()) →
      exRes = .ok reply → reply.rcode = 3 →
      tryOneName netStr name serverStr dialRes hsRes exRes =
        .error (extendDNSError { name := name, server := serverStr }
          { err := errNoSuchHostMsg, isNotFound := true }) ∧
      (extendDNSError { name := name, server := serverStr }
        { err := errNoSuchHostMsg, isNotFound := true }).isNotFound = true ∧
      (extendDNSError { name := name, server := serverStr }
        { err := errNoSuchHostMsg, isNotFound := true }).isTemporary = false) ∧
    (∀ reply, dialRes = .ok () →
      ("-tls".data.isSuffixOf netStr.data = false ∨ hsRes = .ok ()) →
      exRes = .ok reply → reply.rcode ≠ 0 → reply.rcode ≠ 3 →
      tryOneName netStr name serverStr dialRes hsRes exRes =
        .error (extendDNSError { name := name, server := serverStr }
          { err := serverMisbehavingMsg reply.rcode,
            isTemporary := reply.rcode == 2 }) ∧
      (extendDNSError { name := name, server := serverStr }
        { err := serverMisbehavingMsg reply.rcode,
          isTemporary := reply.rcode == 2 }).isTemporary = (reply.rcode == 2)) := by
  refine ⟨?_, ?_, ?_, ?_, ?_, ?_⟩
  · intro msg tmo hd
    subst hd
    exact ⟨rfl, by simp [extendDNSError]⟩
  · intro msg tmo hd htls hhs
    subst hd
    subst hhs
    refine ⟨?_, by simp [extendDNSError]⟩
    unfold tryOneName
    simp only [htls, if_true]
  · intro msg tmo hd htls hex
    subst hd
    subst hex
    refine ⟨?_, by simp [extendDNSError]⟩
    unfold tryOneName
    rcases htls with htls | hhs
    · simp only [htls]
      rfl
    · subst hhs
      by_cases h : "-tls".data.isSuffixOf netStr.data = true <;> simp [h] <;> rfl
  · intro reply hd htls hex h0
    subst hd
    subst hex
    unfold tryOneName
    have hgoal : tryOneNameExchange { name := name, server := serverStr }
        (.ok reply) = .ok reply := by
      unfold tryOneNameExchange
      simp [h0]
    rcases htls with htls | hhs
    · simpa [htls] using hgoal
    · subst hhs
      by_cases h : "-tls".data.isSuffixOf netStr.data = true <;> simpa [h] using hgoal
  · intro reply hd htls hex h3
    subst hd
    subst hex
    refine ⟨?_, by simp [extendDNSError], by simp [extendDNSError]⟩
    unfold tryOneName
    have hgoal : tryOneNameExchange { name := name, server := serverStr }
        (.ok reply) = .error (extendDNSError { name := name, server := serverStr }
          { err := errNoSuchHostMsg, isNotFound := true }) := by
      unfold tryOneNameExchange
      simp [h3]
    rcases htls with htls | hhs
    · simpa [htls] using hgoal
    · subst hhs
      by_cases h : "-tls".data.isSuffixOf netStr.data = true <;> simpa [h] using hgoal
  · intro reply hd htls hex h0 h3
    subst hd
    subst hex
    refine ⟨?_, by simp [extendDNSError]⟩
    unfold tryOneName
    have hgoal : tryOneNameExchange { name := name, server := serverStr }
        (.ok reply) = .error (extendDNSError { name := name, server := serverStr }
          { err := serverMisbehavingMsg reply.rcode,
            isTemporary := reply.rcode == 2 }) := by
      unfold tryOneNameExchange
      simp [h0, h3]
    rcases htls with htls | hhs
    · simpa [htls] using hgoal
    · subst hhs
      by_cases h : "-tls".data.isSuffixOf netStr.data = true <;> simpa [h] using hgoal

/-- Witness for C2 at concrete inputs: over plain UDP, a SERVFAIL reply
is classified as a temporary server-misbehaving error, an NXDOMAIN reply
as not-found, a successful reply passes through, and over TCP+TLS a
handshake failure is classified non-temporary. -/
theorem tryOneName_classification_witness :
    tryOneName "udp" "example.com." "8.8.8.8:53" (.ok ()) (.ok ())
        (.ok { rcode := 2, answer := [] }) =
      .error (extendDNSError { name := "example.com.", server := "8.8.8.8:53" }
        { err := serverMisbehavingMsg 2, isTemporary := (2 : Nat) == 2 }) ∧
    tryOneName "udp" "example.com." "8.8.8.8:53" (.ok ()) (.ok ())
        (.ok { rcode := 3, answer := [] }) =
      .error (extendDNSError { name := "example.com.", server := "8.8.8.8:53" }
        { err := errNoSuchHostMsg, isNotFound := true }) ∧
    tryOneName "udp" "example.com." "8.8.8.8:53" (.ok ()) (.ok ())
        (.ok { rcode := 0, answer := [RR.a [10, 0, 0, 1]] }) =
      .ok { rcode := 0, answer := [RR.a [10, 0, 0, 1]] } ∧
    tryOneName "tcp-tls" "example.com." "8.8.8.8:853" (.ok ())
        (.err "handshake failure" false) (.ok { rcode := 0, answer := [] }) =
      .error (extendDNSError { name := "example.com.", server := "8.8.8.8:853" }
        { err := "handshake failure", isTimeout := false }) := by
  refine ⟨?_, ?_, ?_, ?_⟩
  · exact ((tryOneName_classification "udp" "example.com." "8.8.8.8:53" (.ok ()) (.ok ())
      (.ok { rcode := 2, answer := [] })).2.2.2.2.2 { rcode := 2, answer := [] }
      rfl (Or.inl (by decide)) rfl (by decide) (by decide)).1
  · exact ((tryOneName_classification "udp" "example.com." "8.8.8.8:53" (.ok ()) (.ok ())
      (.ok { rcode := 3, answer := [] })).2.2.2.2.1 { rcode := 3, answer := [] }
      rfl (Or.inl (by decide)) rfl rfl).1
  · exact (tryOneName_classification "udp" "example.com." "8.8.8.8:53" (.ok ()) (.ok ())
      (.ok { rcode := 0, answer := [RR.a [10, 0, 0, 1]] })).2.2.2.1
      { rcode := 0, answer := [RR.a [10, 0, 0, 1]] } rfl (Or.inl (by decide)) rfl rfl
  · exact ((tryOneName_classification "tcp-tls" "example.com." "8.8.8.8:853" (.ok ())
      (.err "handshake failure" false) (.ok { rcode := 0, answer := [] })).2.1
      "handshake failure" false rfl (by decide) rfl).1

theorem relativeTryV0_first_ok (inner : String → Except DNSError (List Addr))
    (host : String) (pre rest : List String) (acc : Option DNSError)
    (n : String) (v : List Addr)
    (hpre : ∀ m ∈ pre, ∃ e, inner m = .error e) (hok : inner n = .ok v) :
    relativeTryV0 inner host (pre ++ n :: rest) acc = .ok v := by
  induction pre generalizing acc with
  | nil => simp [relativeTryV0, hok]
  | cons m pre ih =>
      obtain ⟨e, he⟩ := hpre m (List.mem_cons_self m pre)
      show relativeTryV0 inner host (m :: (pre ++ n :: rest)) acc = .ok v
      rw [relativeTryV0, he]
      exact ih _ (fun m hm => hpre m (List.mem_cons_of_mem _ hm))

theorem relativeTry_first_ok (inner : String → Except DNSError (List Addr))
    (pre rest : List String) (acc : List GoError) (n : String) (v : List Addr)
    (hpre : ∀ m ∈ pre, ∃ e, inner m = .error e) (hok : inner n = .ok v) :
    relativeTry inner (pre ++ n :: rest) acc = .ok v := by
  induction pre generalizing acc with
  | nil => simp [relativeTry, hok]
  | cons m pre ih =>
      obtain ⟨e, he⟩ := hpre m (List.mem_cons_self m pre)
      show relativeTry inner (m :: (pre ++ n :: rest)) acc = .ok v
      rw [relativeTry, he]
      exact ih _ (fun m hm => hpre m (List.mem_cons_of_mem _ hm))

/-- C5 amended: in the later relative-resolver variant (the one with the
explicit trailing-dot test) a host ending in a trailing dot is always
looked up as-is with exactly one inner lookup; in the part_013 variant
this holds only when the host's dot count reaches the `ndots` threshold
(both variants then use the single fully-qualified name). A host without
a trailing dot and with fewer than `ndots` dots is expanded, in both
variants, to the host joined with each search suffix in the configured
order (the syntactically valid joins), and the lookup loops return the
first successful result. -/
theorem relative_name_selection (search : List String) (ndots : Nat) (host : String)
    (inner : String → Except DNSError (List Addr)) :
    (endsWithDot host = true →
      relativeNames search ndots host = [host] ∧
      (∀ v, inner host = .ok v →
        relativeLookupNetIP inner search ndots host = .ok v) ∧
      (∀ e, inner host = .error e →
        relativeLookupNetIP inner search ndots host = .error (.joined [.dns e]))) ∧
    (ndots ≤ countDots host →
      relativeNamesV0 search ndots host = [fqdn host] ∧
      relativeNames search ndots host = [fqdn host]) ∧
    ((endsWithDot host = false ∧ countDots host < ndots ∧
        ∀ d ∈ search, isDomainName (joinHostDomain host d) = true) →
      relativeNames search ndots host = search.map (joinHostDomain host) ∧
      relativeNamesV0 search ndots host = search.map (joinHostDomain host)) ∧
    (∀ (pre rest : List String) (n : String) (v : List Addr),
      (∀ m ∈ pre, ∃ e, inner m = .error e) → inner n = .ok v →
      relativeTryV0 inner host (pre ++ n :: rest) none = .ok v ∧
      relativeTry inner (pre ++ n :: rest) [] = .ok v) := by
  refine ⟨?_, ?_, ?_, ?_⟩
  · intro hdot
    have hfq : fqdn host = host := by
      unfold fqdn
      rw [hdot]
      simp
    have hnames : relativeNames search ndots host = [host] := by
      unfold relativeNames
      rw [if_neg (by simp [hdot]), hfq]
    refine ⟨hnames, ?_, ?_⟩
    · intro v hok
      unfold relativeLookupNetIP
      rw [hnames]
      simp [relativeTry, hok]
    · intro e he
      unfold relativeLookupNetIP
      rw [hnames]
      rw [relativeTry, he]
      simp [relativeTry, joinErrors]
  · intro hge
    constructor
    · unfold relativeNamesV0
      rw [if_neg (by omega)]
    · unfold relativeNames
      rw [if_neg (by rintro ⟨_, h2⟩; omega)]
  · rintro ⟨hdot, hlt, hvalid⟩
    constructor
    · unfold relativeNames
      rw [if_pos ⟨by simp [hdot], hlt⟩]
      exact List.filter_eq_self.mpr (fun d hd => by
        obtain ⟨d0, hd0, hd0e⟩ := List.mem_map.mp hd
        subst hd0e
        exact hvalid d0 hd0)
    · unfold relativeNamesV0
      rw [if_pos hlt]
      exact List.filter_eq_self.mpr (fun d hd => by
        obtain ⟨d0, hd0, hd0e⟩ := List.mem_map.mp hd
        subst hd0e
        exact hvalid d0 hd0)
  · intro pre rest n v hpre hok
    exact ⟨relativeTryV0_first_ok inner host pre rest none n v hpre hok,
      relativeTry_first_ok inner pre rest [] n v hpre hok⟩

/-- C5 counterexample: in the part_013 relative-resolver variant, the
trailing-dot host `"foo."` with `ndots = 2` (its dot count, 1, is below
the threshold) is not looked up as-is: the single candidate name is the
search join `"foo.example.com."`, not the FQDN form of the given name,
and a lookup succeeds via that joined name while the as-is name was never
consulted. -/
theorem relative_trailing_dot_counterexample :
    relativeNamesV0 ["example.com."] 2 "foo." = ["foo.example.com."] ∧
    relativeNamesV0 ["example.com."] 2 "foo." ≠ [fqdn "foo."] ∧
    relativeLookupNetIPV0
        (fun n => if n = "foo.example.com." then .ok [⟨[1, 2, 3, 4]⟩]
                  else .error { err := errNoSuchHostMsg, name := n, isNotFound := true })
        ["example.com."] 2 "foo." = .ok [⟨[1, 2, 3, 4]⟩] := by
  refine ⟨by decide, by decide, by decide⟩

/-- Witness for C5 at concrete inputs: a trailing-dot host below the
threshold is looked up as-is (one lookup) by the later variant; a host
with enough dots is looked up as-is by the part_013 variant; a dotless
host is expanded over the search list in order and the first success is
returned. -/
theorem relative_name_selection_witness :
    relativeNames ["prod.local."] 5 "db." = ["db."] ∧
    relativeLookupNetIP
        (fun n => if n = "db." then .ok [⟨[10, 0, 0, 7]⟩]
                  else .error { err := errNoSuchHostMsg, name := n, isNotFound := true })
        ["prod.local."] 5 "db." = .ok [⟨[10, 0, 0, 7]⟩] ∧
    relativeNamesV0 ["prod.local."] 2 "a.b.c" = [fqdn "a.b.c"] ∧
    relativeNames ["prod.local."] 2 "db" = ["db.prod.local."] := by
  have h1 := relative_name_selection ["prod.local."] 5 "db."
    (fun n => if n = "db." then .ok [⟨[10, 0, 0, 7]⟩]
              else .error { err := errNoSuchHostMsg, name := n, isNotFound := true })
  have h2 := relative_name_selection ["prod.local."] 2 "a.b.c"
    (fun n => if n = "db." then .ok [⟨[10, 0, 0, 7]⟩]
              else .error { err := errNoSuchHostMsg, name := n, isNotFound := true })
  have h3 := relative_name_selection ["prod.local."] 2 "db"
    (fun n => if n = "db." then .ok [⟨[10, 0, 0, 7]⟩]
              else .error { err := errNoSuchHostMsg, name := n, isNotFound := true })
  refine ⟨(h1.1 (by decide)).1, (h1.1 (by decide)).2.1 [⟨[10, 0, 0, 7]⟩] (by decide),
    (h2.2.1 (by decide)).1, ?_⟩
  have := (h3.2.2.1 ⟨by decide, by decide, by decide⟩).1
  rw [this]
  decide

/-- The addresses one finished query contributes (used to describe the
accumulated answers as a whole). -/
def okExtract : Except DNSError Reply → List Addr
  | .ok r => extractAddrs r.answer
  | .error _ => []

theorem foldl_collectStep (outs : List (Except DNSError Reply)) :
    ∀ acc : List Addr, outs.foldl collectStep acc = acc ++ outs.flatMap okExtract := by
  induction outs with
  | nil => intro acc; simp
  | cons o outs ih =>
      intro acc
      cases o with
      | ok r => simp [collectStep, okExtract, ih, List.append_assoc]
      | error e => simp [collectStep, okExtract, ih]

theorem collectAnswers_eq_flatMap (outs : List (Except DNSError Reply)) :
    collectAnswers outs = outs.flatMap okExtract := by
  simpa using foldl_collectStep outs []

theorem dnsLookupNetIP_ip_eval (sort : List Addr → List Addr) (host : String)
    (tryOne : Nat → Except DNSError Reply) (sr : Bool) (sched : List Nat)
    (hdom : isDomainName host = true) :
    dnsLookupNetIP sort "ip" host tryOne sr sched =
      (match (if sr then runQueriesSeq tryOne [typeA, typeAAAA]
              else runQueriesPar tryOne [typeA, typeAAAA] sched) with
       | .error e => .error e
       | .ok addrs =>
           if addrs.length > 0 then .ok (sort addrs)
           else .error (extendDNSError { name := host }
             { err := errNoSuchHostMsg, isNotFound := true })) := by
  unfold dnsLookupNetIP
  rw [if_neg (by simp [hdom])]
  have hq : qTypesFor "ip" = some [typeA, typeAAAA] := rfl
  rw [hq]
  dsimp only
  cases hrun : (if sr then runQueriesSeq tryOne [typeA, typeAAAA]
               else runQueriesPar tryOne [typeA, typeAAAA] sched) with
  | error e => rfl
  | ok addrs =>
      dsimp only
      by_cases hlen : addrs.length > 0
      · rw [if_pos hlen, if_pos hlen, if_pos (show ("ip" : String) ≠ "ip4" by decide)]
      · rw [if_neg hlen, if_neg hlen]

/-- C1 amended: for the wire resolver with network `"ip"`, (1) when both
independent queries succeed, the collected answer addresses are returned
(RFC 6724-ordered) when non-empty, and a synthesized not-found error when
empty; (2) the moment any of the two queries fails, the first error in
completion order is returned — the addresses collected by the other query
are discarded, not returned; (3) in `singleRequest` mode a failing first
query likewise aborts the lookup with that error. -/
theorem dns_lookup_outcome (sort : List Addr → List Addr)
    (hsort : ∀ l : List Addr, (sort l).Perm l)
    (host : String) (hdom : isDomainName host = true)
    (tryOne : Nat → Except DNSError Reply) (sched : List Nat)
    (hsched : (sched.filterMap fun i => [typeA, typeAAAA].get? i).Perm [typeA, typeAAAA]) :
    (∀ rA rAAAA, tryOne typeA = .ok rA → tryOne typeAAAA = .ok rAAAA →
      (extractAddrs rA.answer ++ extractAddrs rAAAA.answer ≠ [] →
        ∃ out, dnsLookupNetIP sort "ip" host tryOne false sched = .ok out ∧
          out.Perm (extractAddrs rA.answer ++ extractAddrs rAAAA.answer)) ∧
      (extractAddrs rA.answer ++ extractAddrs rAAAA.answer = [] →
        dnsLookupNetIP sort "ip" host tryOne false sched =
          .error (extendDNSError { name := host }
            { err := errNoSuchHostMsg, isNotFound := true }))) ∧
    ((∃ q ∈ [typeA, typeAAAA], ∃ e, tryOne q = .error e) →
      ∃ e, dnsLookupNetIP sort "ip" host tryOne false sched = .error e ∧
        ∃ q ∈ [typeA, typeAAAA], tryOne q = .error e) ∧
    (∀ e, tryOne typeA = .error e →
      dnsLookupNetIP sort "ip" host tryOne true sched = .error e) := by
  refine ⟨?_, ?_, ?_⟩
  · intro rA rAAAA hA hAAAA
    have hnone : ((sched.filterMap fun i => [typeA, typeAAAA].get? i).map tryOne).findSome?
        errPick = none := by
      rw [List.findSome?_eq_none_iff]
      intro o ho
      obtain ⟨q, hq, rfl⟩ := List.mem_map.mp ho
      have hq2 : q ∈ [typeA, typeAAAA] := hsched.mem_iff.mp hq
      rcases List.mem_cons.mp hq2 with rfl | hq3
      · rw [hA]; rfl
      · rcases List.mem_cons.mp hq3 with rfl | hq4
        · rw [hAAAA]; rfl
        · exact absurd hq4 (List.not_mem_nil q)
    have hpar : runQueriesPar tryOne [typeA, typeAAAA] sched =
        .ok (collectAnswers ((sched.filterMap fun i => [typeA, typeAAAA].get? i).map tryOne)) := by
      unfold runQueriesPar
      dsimp only
      rw [hnone]
    have hcoll : (collectAnswers ((sched.filterMap fun i =>
        [typeA, typeAAAA].get? i).map tryOne)).Perm
          (extractAddrs rA.answer ++ extractAddrs rAAAA.answer) := by
      rw [collectAnswers_eq_flatMap]
      have hmm : ((sched.filterMap fun i => [typeA, typeAAAA].get? i).map tryOne).flatMap
          okExtract = (sched.filterMap fun i => [typeA, typeAAAA].get? i).flatMap
            (okExtract ∘ tryOne) := by
        simp [List.flatMap_def, List.map_map]
      rw [hmm]
      have hperm := hsched.flatMap_right (okExtract ∘ tryOne)
      refine hperm.trans ?_
      show (okExtract (tryOne typeA) ++ (okExtract (tryOne typeAAAA) ++ [])).Perm _
      rw [hA, hAAAA]
      simp [okExtract]
    constructor
    · intro hne
      refine ⟨sort (collectAnswers _), ?_, (hsort _).trans hcoll⟩
      rw [dnsLookupNetIP_ip_eval sort host tryOne false sched hdom]
      rw [if_neg (by simp), hpar]
      dsimp only
      have hlen : (collectAnswers ((sched.filterMap fun i =>
          [typeA, typeAAAA].get? i).map tryOne)).length > 0 := by
        rw [hcoll.length_eq]
        exact List.length_pos.mpr hne
      rw [if_pos hlen]
    · intro hempty
      rw [dnsLookupNetIP_ip_eval sort host tryOne false sched hdom]
      rw [if_neg (by simp), hpar]
      have hnil : collectAnswers ((sched.filterMap fun i =>
          [typeA, typeAAAA].get? i).map tryOne) = [] := by
        rw [hempty] at hcoll
        exact hcoll.eq_nil
      rw [hnil]
      dsimp only
      simp
  · rintro ⟨q, hq, e, he⟩
    have hq' : q ∈ (sched.filterMap fun i => [typeA, typeAAAA].get? i) :=
      hsched.mem_iff.mpr hq
    have hmem : tryOne q ∈ ((sched.filterMap fun i => [typeA, typeAAAA].get? i).map tryOne) :=
      List.mem_map_of_mem tryOne hq'
    cases hfind : ((sched.filterMap fun i => [typeA, typeAAAA].get? i).map tryOne).findSome?
        errPick with
    | none =>
        exfalso
        have := List.findSome?_eq_none_iff.mp hfind (tryOne q) hmem
        rw [he] at this
        exact Option.noConfusion this
    | some e0 =>
        obtain ⟨o, ho, hpick⟩ := List.exists_of_findSome?_eq_some hfind
        obtain ⟨q0, hq0, rfl⟩ := List.mem_map.mp ho
        have hq0err : tryOne q0 = .error e0 := by
          cases htry : tryOne q0 with
          | ok r => rw [htry] at hpick; exact Option.noConfusion hpick
          | error e1 =>
              rw [htry] at hpick
              have : e1 = e0 := by
                have h2 : some e1 = some e0 := hpick
                exact Option.some.inj h2
              rw [this]
        refine ⟨e0, ?_, q0, hsched.mem_iff.mp hq0, hq0err⟩
        rw [dnsLookupNetIP_ip_eval sort host tryOne false sched hdom]
        rw [if_neg (by simp)]
        have hpar : runQueriesPar tryOne [typeA, typeAAAA] sched = .error e0 := by
          unfold runQueriesPar
          dsimp only
          rw [hfind]
        rw [hpar]
  · intro e he
    rw [dnsLookupNetIP_ip_eval sort host tryOne true sched hdom]
    rw [if_pos rfl]
    have hseq : runQueriesSeq tryOne [typeA, typeAAAA] = .error e := by
      rw [runQueriesSeq, he]
    rw [hseq]

/-- The server-misbehaving error the failing A query of the C1
counterexample produces. -/
def dnsCexErr : DNSError where
  err := serverMisbehavingMsg 2
  name := "example.com."
  server := "8.8.8.8:53"
  isTemporary := true

/-- The query outcomes of the C1 counterexample: the A query fails with
SERVFAIL while the AAAA query succeeds with one address. -/
def dnsCexTryOne (q : Nat) : Except DNSError Reply :=
  if q = typeAAAA then
    .ok { rcode := 0,
          answer := [RR.aaaa [0x20, 0x01, 0x0d, 0xb8, 0, 0, 0, 0, 0, 0, 0, 0, 0, 0, 0, 1]] }
  else .error dnsCexErr

/-- C1 counterexample: with network `"ip"`, the A query failing and the
AAAA query answering one address, `dnsResolver.LookupNetIP` returns the
A query's error — not the collected AAAA address — because `g.Wait()`
surfaces the first error before the address check is reached. -/
theorem dns_lookup_error_counterexample :
    dnsLookupNetIP id "ip" "example.com" dnsCexTryOne false [0, 1] = .error dnsCexErr ∧
    dnsCexTryOne typeAAAA =
      .ok { rcode := 0,
            answer := [RR.aaaa [0x20, 0x01, 0x0d, 0xb8, 0, 0, 0, 0, 0, 0, 0, 0, 0, 0, 0, 1]] } ∧
    extractAddrs [RR.aaaa [0x20, 0x01, 0x0d, 0xb8, 0, 0, 0, 0, 0, 0, 0, 0, 0, 0, 0, 1]] ≠ [] := by
  refine ⟨by decide, by decide, by decide⟩

/-- Witness for C1 at concrete inputs: with both queries answering, the
addresses come back; with the A query failing in `singleRequest` mode the
error comes back. -/
theorem dns_lookup_outcome_witness :
    (∃ out, dnsLookupNetIP id "ip" "example.com"
        (fun q => if q = typeA then .ok { rcode := 0, answer := [RR.a [10, 0, 0, 1]] }
                  else .ok { rcode := 0, answer := [] })
        false [0, 1] = .ok out ∧
      out.Perm (extractAddrs [RR.a [10, 0, 0, 1]] ++ extractAddrs [])) ∧
    dnsLookupNetIP id "ip" "example.com"
        (fun _ => .error { err := "i/o timeout", isTemporary := true })
        true [0, 1] = .error { err := "i/o timeout", isTemporary := true } := by
  constructor
  · exact ((dns_lookup_outcome id (fun l => List.Perm.refl l) "example.com" (by decide)
      (fun q => if q = typeA then .ok { rcode := 0, answer := [RR.a [10, 0, 0, 1]] }
                else .ok { rcode := 0, answer := [] })
      [0, 1] (by decide)).1
      { rcode := 0, answer := [RR.a [10, 0, 0, 1]] } { rcode := 0, answer := [] }
      (by decide) (by decide)).1 (by decide)
  · exact (dns_lookup_outcome id (fun l => List.Perm.refl l) "example.com" (by decide)
      (fun _ => .error { err := "i/o timeout", isTemporary := true })
      [0, 1] (by decide)).2.2 { err := "i/o timeout", isTemporary := true } rfl

/-- The error entries workers with a given state list would have recorded
(position by position, `none` for a successful worker): the multiset that
the `errs` slice holds once exactly the `done` workers have appended. -/
def contrib : List (Except DNSError (List Addr)) → List PTask → List (Option DNSError)
  | o :: os, t :: ts => (if t = PTask.done then [errOpt o] else []) ++ contrib os ts
  | _, _ => []

theorem contrib_all_not_done (os : List (Except DNSError (List Addr))) :
    ∀ ts : List PTask, (∀ t ∈ ts, t ≠ PTask.done) → contrib os ts = [] := by
  induction os with
  | nil => intro ts _; cases ts <;> rfl
  | cons o os ih =>
      intro ts h
      cases ts with
      | nil => rfl
      | cons t ts =>
          show (if t = PTask.done then [errOpt o] else []) ++ contrib os ts = []
          rw [if_neg (h t (List.mem_cons_self t ts))]
          simpa using ih ts (fun t ht => h t (List.mem_cons_of_mem _ ht))

theorem contrib_set_not_done (os : List (Except DNSError (List Addr))) :
    ∀ (ts : List PTask) (i : Nat) (t tn : PTask),
    ts.get? i = some t → t ≠ PTask.done → tn ≠ PTask.done →
    contrib os (ts.set i tn) = contrib os ts := by
  induction os with
  | nil =>
      intro ts i t tn _ _ _
      cases hset : ts.set i tn <;> cases ts <;> rfl
  | cons o os ih =>
      intro ts i t tn hts ht htn
      cases ts with
      | nil => rfl
      | cons t0 ts =>
          cases i with
          | zero =>
              have ht0 : t0 = t := by
                have := hts
                simp [List.get?] at this
                exact this
              subst ht0
              show (if tn = PTask.done then [errOpt o] else []) ++ contrib os ts =
                (if t0 = PTask.done then [errOpt o] else []) ++ contrib os ts
              rw [if_neg htn, if_neg ht]
          | succ i =>
              show (if t0 = PTask.done then [errOpt o] else []) ++ contrib os (ts.set i tn) =
                (if t0 = PTask.done then [errOpt o] else []) ++ contrib os ts
              rw [ih ts i t tn (by simpa using hts) ht htn]

theorem contrib_set_done (os : List (Except DNSError (List Addr))) :
    ∀ (ts : List PTask) (i : Nat) (o : Except DNSError (List Addr)) (t : PTask),
    os.get? i = some o → ts.get? i = some t → t ≠ PTask.done →
    (contrib os (ts.set i PTask.done)).Perm (errOpt o :: contrib os ts) := by
  induction os with
  | nil => intro ts i o t hos _ _; simp at hos
  | cons o0 os ih =>
      intro ts i o t hos hts ht
      cases ts with
      | nil => simp at hts
      | cons t0 ts =>
          cases i with
          | zero =>
              have ho0 : o0 = o := by simpa using hos
              have ht0 : t0 = t := by simpa using hts
              subst ho0
              subst ht0
              show List.Perm
                ((if PTask.done = PTask.done then [errOpt o0] else []) ++ contrib os ts)
                (errOpt o0 :: ((if t0 = PTask.done then [errOpt o0] else []) ++ contrib os ts))
              rw [if_pos rfl, if_neg ht]
              simp
          | succ i =>
              have hrec := ih ts i o t (by simpa using hos) (by simpa using hts) ht
              show List.Perm
                ((if t0 = PTask.done then [errOpt o0] else []) ++
                  contrib os (ts.set i PTask.done))
                (errOpt o :: ((if t0 = PTask.done then [errOpt o0] else []) ++ contrib os ts))
              by_cases h0 : t0 = PTask.done
              · simp only [h0, if_pos]
                refine (hrec.append_left [errOpt o0]).trans ?_
                simpa using List.Perm.swap (errOpt o) (errOpt o0) (contrib os ts)
              · simp only [h0, if_neg, if_false]
                simpa using hrec

theorem contrib_all_done (os : List (Except DNSError (List Addr))) :
    ∀ ts : List PTask, ts.length = os.length → (∀ t ∈ ts, t = PTask.done) →
    contrib os ts = os.map errOpt := by
  induction os with
  | nil =>
      intro ts hlen _
      have : ts = [] := List.length_eq_zero.mp hlen
      subst this
      rfl
  | cons o os ih =>
      intro ts hlen hall
      cases ts with
      | nil => simp at hlen
      | cons t0 ts =>
          have h0 : t0 = PTask.done := hall t0 (List.mem_cons_self t0 ts)
          show (if t0 = PTask.done then [errOpt o] else []) ++ contrib os ts = _
          rw [if_pos h0, ih ts (by simpa using hlen)
            (fun t ht => hall t (List.mem_cons_of_mem _ ht))]
          rfl

/-- The inductive invariant of the `parallelResolver.LookupNetIP`
transition system. -/
structure PInv (out : List (Except DNSError (List Addr))) (c : PCfg) : Prop where
  len : c.tasks.length = out.length
  sending_ok : ∀ i addrs, c.tasks.get? i = some (PTask.sending addrs) →
    out.get? i = some (.ok addrs)
  afterSend_ok : ∀ i, c.tasks.get? i = some PTask.afterSend →
    ∃ addrs, out.get? i = some (.ok addrs)
  main_success : ∀ addrs, c.main = .returned (.success addrs) →
    ∃ i, out.get? i = some (.ok addrs)
  main_failed : ∀ es, c.main = .returned (.allFailed es) →
    es = c.errs ∧ c.resultsClosed = true
  closed_done : c.resultsClosed = true → ∀ t ∈ c.tasks, t = PTask.done
  errs_perm : c.errs.Perm (contrib out c.tasks)

theorem PInv_init (out : List (Except DNSError (List Addr))) :
    PInv out (pInit out.length) := by
  refine ⟨by simp [pInit], ?_, ?_, ?_, ?_, ?_, ?_⟩
  · intro i addrs h
    have hmem := List.get?_mem h
    have hmem2 : PTask.sending addrs ∈ List.replicate out.length PTask.pending := by
      simpa [pInit] using hmem
    exact absurd (List.eq_of_mem_replicate hmem2).symm (by simp)
  · intro i h
    have hmem := List.get?_mem h
    have hmem2 : PTask.afterSend ∈ List.replicate out.length PTask.pending := by
      simpa [pInit] using hmem
    exact absurd (List.eq_of_mem_replicate hmem2).symm (by simp)
  · intro addrs h
    exact absurd h (by simp [pInit])
  · intro es h
    exact absurd h (by simp [pInit])
  · intro h
    exact absurd h (by simp [pInit])
  · show List.Perm [] (contrib out (List.replicate out.length PTask.pending))
    rw [contrib_all_not_done out _ (fun t ht => by
      have := List.eq_of_mem_replicate ht
      simp [this])]

theorem lt_of_getq_eq_some {α : Type} {l : List α} {n : Nat} {a : α}
    (h : l.get? n = some a) : n < l.length := by
  by_contra hn
  rw [List.get?_eq_none.mpr (by omega)] at h
  exact Option.noConfusion h

theorem PInv.closed_false {out : List (Except DNSError (List Addr))} {c : PCfg}
    (hinv : PInv out c) {i : Nat} {t : PTask}
    (ht : c.tasks.get? i = some t) (htd : t ≠ PTask.done) :
    c.resultsClosed = false := by
  cases hrc : c.resultsClosed
  · rfl
  · exact absurd (hinv.closed_done hrc t (List.get?_mem ht)) htd

theorem PInv.main_failed_absurd {out : List (Except DNSError (List Addr))} {c : PCfg}
    (hinv : PInv out c) {i : Nat} {t : PTask}
    (ht : c.tasks.get? i = some t) (htd : t ≠ PTask.done)
    {es : List (Option DNSError)} (hm : c.main = .returned (.allFailed es)) : False := by
  have h1 := (hinv.main_failed es hm).2
  rw [hinv.closed_false ht htd] at h1
  exact Bool.noConfusion h1

theorem PInv_step (out : List (Except DNSError (List Addr))) {c c' : PCfg}
    (hinv : PInv out c) (hs : PStep out c c') : PInv out c' := by
  cases hs with
  | runErr i e c ht ho =>
      refine ⟨by simp [hinv.len], ?_, ?_, hinv.main_success, ?_, ?_, ?_⟩
      · intro j addrs hj
        by_cases hij : i = j
        · subst hij
          rw [List.get?_set_eq_of_lt _ (lt_of_getq_eq_some ht)] at hj
          exact absurd hj (by simp)
        · rw [List.get?_set_ne _ _ hij] at hj
          exact hinv.sending_ok j addrs hj
      · intro j hj
        by_cases hij : i = j
        · subst hij
          rw [List.get?_set_eq_of_lt _ (lt_of_getq_eq_some ht)] at hj
          exact absurd hj (by simp)
        · rw [List.get?_set_ne _ _ hij] at hj
          exact hinv.afterSend_ok j hj
      · intro es hm
        exact absurd (hinv.main_failed_absurd ht (by simp) hm) (fun h => h)
      · intro hrc
        have := hinv.closed_false ht (by simp)
        rw [this] at hrc
        exact absurd hrc (by simp)
      · have h1 : (contrib out (c.tasks.set i PTask.done)).Perm
            (errOpt (.error e) :: contrib out c.tasks) :=
          contrib_set_done out c.tasks i (.error e) PTask.pending ho ht (by simp)
        show (c.errs ++ [some e]).Perm (contrib out (c.tasks.set i PTask.done))
        refine ((List.perm_append_singleton _ _).trans
          (hinv.errs_perm.cons (some e))).trans ?_
        exact h1.symm
  | runOk i addrs c ht ho =>
      refine ⟨by simp [hinv.len], ?_, ?_, hinv.main_success, hinv.main_failed, ?_, ?_⟩
      · intro j a hj
        by_cases hij : i = j
        · subst hij
          rw [List.get?_set_eq_of_lt _ (lt_of_getq_eq_some ht)] at hj
          have ha : a = addrs := by
            have := Option.some.inj hj
            cases this
            rfl
          subst ha
          exact ho
        · rw [List.get?_set_ne _ _ hij] at hj
          exact hinv.sending_ok j a hj
      · intro j hj
        by_cases hij : i = j
        · subst hij
          rw [List.get?_set_eq_of_lt _ (lt_of_getq_eq_some ht)] at hj
          exact absurd hj (by simp)
        · rw [List.get?_set_ne _ _ hij] at hj
          exact hinv.afterSend_ok j hj
      · intro hrc
        have := hinv.closed_false ht (by simp)
        rw [this] at hrc
        exact absurd hrc (by simp)
      · show c.errs.Perm (contrib out (c.tasks.set i (PTask.sending addrs)))
        rw [contrib_set_not_done out c.tasks i PTask.pending (PTask.sending addrs) ht
          (by simp) (by simp)]
        exact hinv.errs_perm
  | deliver i addrs c ht hm =>
      refine ⟨by simp [hinv.len], ?_, ?_, ?_, ?_, ?_, ?_⟩
      · intro j a hj
        by_cases hij : i = j
        · subst hij
          rw [List.get?_set_eq_of_lt _ (lt_of_getq_eq_some ht)] at hj
          exact absurd hj (by simp)
        · rw [List.get?_set_ne _ _ hij] at hj
          exact hinv.sending_ok j a hj
      · intro j hj
        by_cases hij : i = j
        · subst hij
          exact ⟨addrs, hinv.sending_ok i addrs ht⟩
        · rw [List.get?_set_ne _ _ hij] at hj
          exact hinv.afterSend_ok j hj
      · intro a hma
        have ha : a = addrs := by
          have h1 := hma
          simp only [PMain.returned.injEq, PRet.success.injEq] at h1
          exact h1.symm
        subst ha
        exact ⟨i, hinv.sending_ok i a ht⟩
      · intro es hmf
        simp only [PMain.returned.injEq] at hmf
        exact absurd hmf (by simp)
      · intro hrc
        have := hinv.closed_false ht (by simp)
        rw [this] at hrc
        exact absurd hrc (by simp)
      · show c.errs.Perm (contrib out (c.tasks.set i PTask.afterSend))
        rw [contrib_set_not_done out c.tasks i (PTask.sending addrs) PTask.afterSend ht
          (by simp) (by simp)]
        exact hinv.errs_perm
  | finishSend i c ht =>
      obtain ⟨addrs, ho⟩ := hinv.afterSend_ok i ht
      refine ⟨by simp [hinv.len], ?_, ?_, hinv.main_success, ?_, ?_, ?_⟩
      · intro j a hj
        by_cases hij : i = j
        · subst hij
          rw [List.get?_set_eq_of_lt _ (lt_of_getq_eq_some ht)] at hj
          exact absurd hj (by simp)
        · rw [List.get?_set_ne _ _ hij] at hj
          exact hinv.sending_ok j a hj
      · intro j hj
        by_cases hij : i = j
        · subst hij
          rw [List.get?_set_eq_of_lt _ (lt_of_getq_eq_some ht)] at hj
          exact absurd hj (by simp)
        · rw [List.get?_set_ne _ _ hij] at hj
          exact hinv.afterSend_ok j hj
      · intro es hm
        exact absurd (hinv.main_failed_absurd ht (by simp) hm) (fun h => h)
      · intro hrc
        have := hinv.closed_false ht (by simp)
        rw [this] at hrc
        exact absurd hrc (by simp)
      · have h1 : (contrib out (c.tasks.set i PTask.done)).Perm
            (errOpt (.ok addrs) :: contrib out c.tasks) :=
          contrib_set_done out c.tasks i (.ok addrs) PTask.afterSend ho ht (by simp)
        show (c.errs ++ [none]).Perm (contrib out (c.tasks.set i PTask.done))
        refine ((List.perm_append_singleton _ _).trans
          (hinv.errs_perm.cons none)).trans ?_
        exact h1.symm
  | closeResults c hall hc =>
      refine ⟨hinv.len, hinv.sending_ok, hinv.afterSend_ok, hinv.main_success, ?_, ?_,
        hinv.errs_perm⟩
      · intro es hm
        exact ⟨(hinv.main_failed es hm).1, rfl⟩
      · intro _ t htm
        exact hall t htm
  | recvClosed c hc hm =>
      refine ⟨hinv.len, hinv.sending_ok, hinv.afterSend_ok, ?_, ?_, hinv.closed_done,
        hinv.errs_perm⟩
      · intro a hma
        simp only [PMain.returned.injEq] at hma
        exact absurd hma (by simp)
      · intro es hmf
        simp only [PMain.returned.injEq, PRet.allFailed.injEq] at hmf
        exact ⟨hmf.symm, hc⟩
  | cancelParent c h =>
      exact ⟨hinv.len, hinv.sending_ok, hinv.afterSend_ok, hinv.main_success,
        hinv.main_failed, hinv.closed_done, hinv.errs_perm⟩
  | ctxDone c hp hm =>
      refine ⟨hinv.len, hinv.sending_ok, hinv.afterSend_ok, ?_, ?_, hinv.closed_done,
        hinv.errs_perm⟩
      · intro a hma
        simp only [PMain.returned.injEq] at hma
        exact absurd hma (by simp)
      · intro es hmf
        simp only [PMain.returned.injEq] at hmf
        exact absurd hmf (by simp)

theorem PReach_inv {out : List (Except DNSError (List Addr))} {c : PCfg}
    (h : PReach out c) : PInv out c := by
  unfold PReach at h
  induction h with
  | refl => exact PInv_init out
  | tail hsteps hstep ih => exact PInv_step out ih hstep

/-- C9 amended: in every execution of `parallelResolver.LookupNetIP`,
(1) a returned success is the result of some inner resolver; (2) a
returned joined-error value holds exactly the errors of all inner
resolvers (as a permutation of them, every worker having finished); (3)
once the parent context is cancelled, the waiting caller can return the
context's error; but (4) the call does NOT await its spawned tasks: it
returns upon the first delivered success while other workers may still be
unfinished, and a worker that has succeeded after the caller returned
stays blocked on the results channel forever (it is leaked). -/
theorem parallel_lookup_outcome (out : List (Except DNSError (List Addr))) :
    (∀ (c : PCfg) (addrs : List Addr), PReach out c →
      c.main = .returned (.success addrs) → ∃ i, out.get? i = some (.ok addrs)) ∧
    (∀ (c : PCfg) (es : List (Option DNSError)), PReach out c →
      c.main = .returned (.allFailed es) →
      es.Perm (out.map errOpt) ∧ ∀ t ∈ c.tasks, t = PTask.done) ∧
    (∀ c : PCfg, PReach out c → c.parentCancelled = true → c.main = .waiting →
      PStep out c { c with main := .returned .ctxError }) ∧
    (∀ (c c' : PCfg) (i : Nat) (addrs : List Addr),
      c.main ≠ .waiting → c.tasks.get? i = some (.sending addrs) →
      Relation.ReflTransGen (PStep out) c c' →
      c'.tasks.get? i = some (.sending addrs) ∧ c'.main ≠ .waiting) := by
  refine ⟨?_, ?_, ?_, ?_⟩
  · intro c addrs hreach hm
    exact (PReach_inv hreach).main_success addrs hm
  · intro c es hreach hm
    have hinv := PReach_inv hreach
    obtain ⟨hes, hclosed⟩ := hinv.main_failed es hm
    have hall := hinv.closed_done hclosed
    refine ⟨?_, hall⟩
    rw [hes]
    refine hinv.errs_perm.trans ?_
    rw [contrib_all_done out c.tasks hinv.len hall]
  · intro c _ hp hm
    exact PStep.ctxDone c hp hm
  · intro c c' i addrs hm ht hsteps
    induction hsteps with
    | refl => exact ⟨ht, hm⟩
    | tail hst step ih =>
        obtain ⟨htb, hmb⟩ := ih
        cases step with
        | runErr j e b ht0 ho =>
            refine ⟨?_, hmb⟩
            have hij : j ≠ i := by
              intro h
              subst h
              rw [htb] at ht0
              exact absurd (Option.some.inj ht0) (by simp)
            rw [List.get?_set_ne _ _ hij]
            exact htb
        | runOk j a0 b ht0 ho =>
            refine ⟨?_, hmb⟩
            have hij : j ≠ i := by
              intro h
              subst h
              rw [htb] at ht0
              exact absurd (Option.some.inj ht0) (by simp)
            rw [List.get?_set_ne _ _ hij]
            exact htb
        | deliver j a0 b ht0 hm0 => exact absurd hm0 hmb
        | finishSend j b ht0 =>
            refine ⟨?_, hmb⟩
            have hij : j ≠ i := by
              intro h
              subst h
              rw [htb] at ht0
              exact absurd (Option.some.inj ht0) (by simp)
            rw [List.get?_set_ne _ _ hij]
            exact htb
        | closeResults b hall hc => exact ⟨htb, hmb⟩
        | recvClosed b hc hm0 => exact absurd hm0 hmb
        | cancelParent b h => exact ⟨htb, hmb⟩
        | ctxDone b hp hm0 => exact absurd hm0 hmb

/-- The inner outcomes of the C9 counterexample: two resolvers that both
succeed. -/
def pCexOut : List (Except DNSError (List Addr)) :=
  [.ok [⟨[10, 0, 0, 1]⟩], .ok [⟨[10, 0, 0, 2]⟩]]

/-- The configuration the C9 counterexample reaches: the caller already
returned the first success while the second worker has not even run. -/
def pCexLeak : PCfg where
  tasks := [PTask.afterSend, PTask.pending]
  errs := []
  resultsClosed := false
  parentCancelled := false
  main := .returned (.success [⟨[10, 0, 0, 1]⟩])

/-- C9 counterexample: a reachable configuration of
`parallelResolver.LookupNetIP` in which the caller has already returned
the first success while worker 1 is still unfinished — the call does not
join/await all spawned tasks before returning. -/
theorem parallel_no_join_counterexample :
    PReach pCexOut pCexLeak ∧
    pCexLeak.main = .returned (.success [⟨[10, 0, 0, 1]⟩]) ∧
    pCexLeak.tasks.get? 1 = some PTask.pending := by
  refine ⟨?_, rfl, rfl⟩
  have s1 : PStep pCexOut (pInit 2)
      { pInit 2 with tasks := (pInit 2).tasks.set 0 (PTask.sending [⟨[10, 0, 0, 1]⟩]) } :=
    PStep.runOk 0 [⟨[10, 0, 0, 1]⟩] (pInit 2) rfl rfl
  have s2 : PStep pCexOut
      { pInit 2 with tasks := (pInit 2).tasks.set 0 (PTask.sending [⟨[10, 0, 0, 1]⟩]) }
      pCexLeak :=
    PStep.deliver 0 [⟨[10, 0, 0, 1]⟩] _ rfl rfl
  exact Relation.ReflTransGen.tail (Relation.ReflTransGen.single s1) s2

/-- The single-resolver outcomes used by the C9 witness. -/
def pWitOut : List (Except DNSError (List Addr)) := [.ok [⟨[10, 0, 0, 1]⟩]]

/-- The configuration the C9 witness reaches: the lone worker delivered
its success and the caller returned it. -/
def pWitCfg : PCfg where
  tasks := [PTask.afterSend]
  errs := []
  resultsClosed := false
  parentCancelled := false
  main := .returned (.success [⟨[10, 0, 0, 1]⟩])

/-- The cancelled configuration used by the C9 witness. -/
def pWitCancel : PCfg where
  tasks := [PTask.pending]
  errs := []
  resultsClosed := false
  parentCancelled := true
  main := .waiting

/-- Witness for C9 at concrete inputs: a returned success is an inner
resolver's result, and after a parent cancellation the caller can return
the context error. -/
theorem parallel_lookup_outcome_witness :
    (∃ i, pWitOut.get? i = some (.ok [⟨[10, 0, 0, 1]⟩])) ∧
    PStep pWitOut pWitCancel { pWitCancel with main := .returned .ctxError } := by
  constructor
  · have s1 : PStep pWitOut (pInit 1)
        { pInit 1 with tasks := (pInit 1).tasks.set 0 (PTask.sending [⟨[10, 0, 0, 1]⟩]) } :=
      PStep.runOk 0 [⟨[10, 0, 0, 1]⟩] (pInit 1) rfl rfl
    have s2 : PStep pWitOut
        { pInit 1 with tasks := (pInit 1).tasks.set 0 (PTask.sending [⟨[10, 0, 0, 1]⟩]) }
        pWitCfg :=
      PStep.deliver 0 [⟨[10, 0, 0, 1]⟩] _ rfl rfl
    exact (parallel_lookup_outcome pWitOut).1 pWitCfg [⟨[10, 0, 0, 1]⟩]
      (Relation.ReflTransGen.tail (Relation.ReflTransGen.single s1) s2) rfl
  · exact (parallel_lookup_outcome pWitOut).2.2.1 pWitCancel
      (Relation.ReflTransGen.single (PStep.cancelParent (pInit 1) rfl)) rfl rfl

end NoisyResolver
